import Mathlib

/-!
Verification of the FX swaps training tool scenario engine.

This file gives a shallow embedding, over exact rationals, of the pure
scenario-engine functions of the single-page source file: the scenario
model, row-total enforcement, the day roll, the objective/badness
evaluators, swap application and the suggestion/tile generators.

Modelling conventions:
* JavaScript numbers are modelled as `ℚ`.  A value that JavaScript would
  report as non-finite (`NaN`, the unloaded-rate marker) is modelled as
  `Option.none`; rate tables are therefore `Ccy → Option ℚ` and
  `Number.isFinite` checks become `Option` matches.
* `Math.round` (round half towards positive infinity) is `jsRound`.
* `Math.random()`-derived values are passed in explicitly as oracle
  arguments (one field per independent random draw); theorems quantify
  over every oracle, with range hypotheses mirroring the `rand` bounds
  where a claim needs them.
* Flow arrays are `List ℚ`; reads use `List.getD _ _ 0`, matching the
  source's `?? 0` fallback, and writes use `List.set`.  Theorems that
  need in-bounds writes carry the length-80 hypothesis that the
  generators establish.
* `shallowCopyScenario` is the identity: in a pure embedding the
  copy-on-write discipline of the source is automatic.
* Display-only fields of generated artifacts (the random `id()` string
  and the formatted counter-amount label) are omitted; they carry no
  behavioural content.
-/

set_option maxRecDepth 2000

namespace FxSwaps

/-- The fixed, alphabetically ordered currency universe of the tool. -/
inductive Ccy
  | AUD | CAD | CHF | EUR | GBP | JPY | MXN | NZD | PHP | USD
deriving DecidableEq, Repr

open Ccy

/-- `CCYS` from the source: the tracked currency list, USD last. -/
def CCYS : List Ccy := [AUD, CAD, CHF, EUR, GBP, JPY, MXN, NZD, PHP, USD]

instance : Fintype Ccy where
  elems := ⟨(CCYS : Multiset Ccy), by decide⟩
  complete := fun x => by cases x <;> decide

def MAX_DAYS : ℕ := 80

def TOL_USD_EQ : ℚ := 5000000

def USD_MIN_ROW_TOTAL : ℚ := 300000000

def NONUSD_ROW_TOTAL_MIN : ℚ := 1

def NONUSD_ROW_TOTAL_MAX : ℚ := 10000000

def USD_BASE_LONG : ℚ := 300000000

def BASIC_MAX_STEPS : ℕ := 30

def BASIC_MIN_STEPS : ℕ := 15

def BASIC_REQUIRED_BAD : ℕ := 3

def FWD_POINTS_SPREAD_BP : ℚ := 1.5

/-- Static annualized interest-rate table `IR` of the source. -/
def IR : Ccy → ℚ
  | AUD => 0.044
  | CAD => 0.047
  | CHF => 0.02
  | EUR => 0.035
  | GBP => 0.052
  | JPY => 0.005
  | MXN => 0.11
  | NZD => 0.05
  | PHP => 0.065
  | USD => 0.05

/-- `clamp(n, min, max) = Math.max(min, Math.min(max, n))`. -/
def clampQ (n mn mx : ℚ) : ℚ := max mn (min mx n)

/-- JavaScript `Math.round`: round half towards positive infinity.
Defined through `Rat.floor` so that it evaluates by kernel reduction;
`jsRound_eq_floor` below identifies it with `⌊q + 1/2⌋`. -/
def jsRound (q : ℚ) : ℤ := (q + 1 / 2).floor

/-- JavaScript `Math.sign` on a rational. -/
def qsign (x : ℚ) : ℚ := if 0 < x then 1 else if x < 0 then -1 else 0

/-- `forwardFromSpot`: covered-interest-parity theoretical forward from
the static rate table, widened by a fixed basis-point spread away from
zero (the spread is added as pure cost when the theoretical points are
zero). -/
def forwardFromSpot (spot : ℚ) (buyCcy sellCcy : Ccy) (days : ℚ) : ℚ :=
  let T := clampQ days 0 3650 / 360
  let rb := IR buyCcy
  let rs := IR sellCcy
  let theoFwd := spot * (1 + rs * T) / (1 + rb * T)
  let points := theoFwd - spot
  let spread := spot * (FWD_POINTS_SPREAD_BP / 10000)
  let widenedPoints := if points = 0 then spread else points + qsign points * spread
  spot + widenedPoints

/-- The `{balances, flows}` scenario record. -/
structure Scenario where
  balances : Ccy → ℚ
  flows : Ccy → List ℚ

/-- `shallowCopyScenario`: the identity in a pure embedding (the source
duplicates the flow arrays to get copy-on-write semantics). -/
def shallowCopyScenario (s : Scenario) : Scenario := s

/-- An FX swap trade; `spot` and `fwd` are quoted as sell-per-buy. -/
structure SwapTrade where
  buyCcy : Ccy
  sellCcy : Ccy
  notionalBuy : ℚ
  nearOffset : ℤ
  farOffset : ℤ
  spot : ℚ
  fwd : ℚ
deriving DecidableEq, Repr

/-- The `applyAt` closure inside `applyFxSwap`: offset 0 posts to the
t+0 balance, an offset strictly between 0 and `MAX_DAYS` posts to that
day's flow bucket, anything else is silently dropped. -/
def applyAt (s : Scenario) (c : Ccy) (offset : ℤ) (delta : ℚ) : Scenario :=
  if offset = 0 then
    { s with balances := Function.update s.balances c (s.balances c + delta) }
  else if 0 < offset ∧ offset < (MAX_DAYS : ℤ) then
    { s with flows :=
        (Function.update s.flows c
          ((s.flows c).set offset.toNat ((s.flows c).getD offset.toNat 0 + delta))) }
  else s

/-- `applyFxSwap`: posts the four cash movements of the two swap legs. -/
def applyFxSwap (s : Scenario) (t : SwapTrade) : Scenario :=
  let out := shallowCopyScenario s
  let out := applyAt out t.buyCcy t.nearOffset t.notionalBuy
  let out := applyAt out t.sellCcy t.nearOffset (-((jsRound (t.notionalBuy * t.spot) : ℤ) : ℚ))
  let out := applyAt out t.buyCcy t.farOffset (-t.notionalBuy)
  let out := applyAt out t.sellCcy t.farOffset ((jsRound (t.notionalBuy * t.fwd) : ℤ) : ℚ)
  out

/-- `invertTrade`: the approximate opposite-direction trade. -/
def invertTrade (t : SwapTrade) : SwapTrade :=
  { buyCcy := t.sellCcy
    sellCcy := t.buyCcy
    notionalBuy := ((jsRound (t.notionalBuy * t.spot) : ℤ) : ℚ)
    nearOffset := t.nearOffset
    farOffset := t.farOffset
    spot := 1 / t.spot
    fwd := 1 / t.fwd }

/-- The row total of a currency: t+0 balance plus all flow buckets at
day offsets `1 .. MAX_DAYS - 1`. -/
def rowTotal (s : Scenario) (c : Ccy) : ℚ :=
  (List.range' 1 (MAX_DAYS - 1)).foldl (fun tot d => tot + (s.flows c).getD d 0) (s.balances c)

/-- Replace one flow bucket of one currency. -/
def setFlowAt (s : Scenario) (c : Ccy) (i : ℕ) (v : ℚ) : Scenario :=
  { s with flows := Function.update s.flows c ((s.flows c).set i v) }

/-- One non-USD iteration of the `enforceRowTotals` loop.  `targetR` is
this currency's raw `rand(1_000_000, 9_000_000)` draw. -/
def enforceOne (targetR : ℚ) (out : Scenario) (c : Ccy) : Scenario :=
  let tot := rowTotal out c
  let target : ℤ := jsRound (targetR / 10000) * 10000
  let delta : ℚ := (target : ℚ) - tot
  let out1 := setFlowAt out c (MAX_DAYS - 1) ((out.flows c).getD (MAX_DAYS - 1) 0 + delta)
  let tot2 := rowTotal out1 c
  if ¬(tot2 > NONUSD_ROW_TOTAL_MIN ∧ tot2 < NONUSD_ROW_TOTAL_MAX) then
    let nudged := clampQ tot2 1000 9999000
    let fix := nudged - tot2
    setFlowAt out1 c (MAX_DAYS - 1) ((out1.flows c).getD (MAX_DAYS - 1) 0 + fix)
  else out1

/-- The body of the `for c of CCYS` loop in `enforceRowTotals`: the
`continue` guard for USD, then the nudge-and-clamp pass. -/
def enforceStep (targetRand : Ccy → ℚ) (o : Scenario) (c : Ccy) : Scenario :=
  if c = USD then o else enforceOne (targetRand c) o c

/-- The final step of `enforceRowTotals`: top the USD t+0 balance up so
the USD row total reaches the funding floor. -/
def usdTopUp (out : Scenario) : Scenario :=
  if rowTotal out USD < USD_MIN_ROW_TOTAL then
    { out with balances :=
        (Function.update out.balances USD
          (out.balances USD + (USD_MIN_ROW_TOTAL - rowTotal out USD))) }
  else out

/-- `enforceRowTotals`: nudge every non-USD final flow bucket so the row
total lands on a randomized small-positive target (with a clamp pass if
the nudge missed the band), then top the USD t+0 balance up to the
funding floor. -/
def enforceRowTotals (s : Scenario) (targetRand : Ccy → ℚ) : Scenario :=
  usdTopUp (CCYS.foldl (enforceStep targetRand) (shallowCopyScenario s))

/-- Random draws consumed by one `rollValueDate` call: the raw
`rand(-15_000_000, 15_000_000)` for each currency's new final bucket,
and the raw row-total targets for the `enforceRowTotals` call. -/
structure RollOracle where
  edge : Ccy → ℚ
  targets : Ccy → ℚ

/-- The deterministic part of `rollValueDate`: fold bucket 1 into the
balance, shift every bucket down one day, zero bucket 0, write the
synthesized final bucket.  The source's ascending in-place loop
`flows[d] = flows[d+1]` reads each original entry before it is
overwritten, so the result is exactly this pointwise description. -/
def rollShift (s : Scenario) (edge : Ccy → ℚ) : Scenario :=
  { balances := fun c => s.balances c + (s.flows c).getD 1 0
    flows := fun c => (List.range MAX_DAYS).map fun d =>
      if d = 0 then 0
      else if d = MAX_DAYS - 1 then ((jsRound (edge c) : ℤ) : ℚ)
      else (s.flows c).getD (d + 1) 0 }

/-- `rollValueDate`: shift the horizon, then re-normalize row totals. -/
def rollValueDate (s : Scenario) (o : RollOracle) : Scenario :=
  enforceRowTotals (rollShift s o.edge) o.targets

/-- Rate snapshot status tag. -/
inductive RatesStatus
  | ok | loading | error
deriving DecidableEq, Repr

/-- The USD-per-unit rate snapshot.  `none` models a non-finite JS
number (rates not loaded).  The unused `ccyPerUsd` mirror table of the
source is omitted: no engine function reads it. -/
structure UsdRates where
  usdPerCcy : Ccy → Option ℚ
  status : RatesStatus

/-- `spotFromUsdRates`: sell-per-buy cross rate, `none` when either leg
has no finite rate.  (Caveat: when `usdPerCcy sellCcy = some 0` the
source would produce an IEEE infinity from the division; `ℚ` division
yields 0.  No theorem below depends on that corner.) -/
def spotFromUsdRates (buyCcy sellCcy : Ccy) (rates : UsdRates) : Option ℚ :=
  if buyCcy = sellCcy then some 1
  else
    match rates.usdPerCcy buyCcy, rates.usdPerCcy sellCcy with
    | some ub, some us => some (ub / us)
    | _, _ => none

/-- `toUsd`: NaN-propagating conversion into USD. -/
def toUsd (amount : ℚ) (c : Ccy) (rates : UsdRates) : Option ℚ :=
  (rates.usdPerCcy c).map fun k => amount * k

/-- `swapUsdCost`: the forward-points cost on the sell currency,
converted into USD. -/
def swapUsdCost (t : SwapTrade) (rates : UsdRates) : Option ℚ :=
  toUsd (t.notionalBuy * (t.fwd - t.spot)) t.sellCcy rates

/-- `solvedT0Long0to5mUsdEq`: every non-USD currency must be long in
`[0, TOL_USD_EQ]` USD-equivalent; a non-finite conversion fails. -/
def solvedT0Long0to5mUsdEq (bal : Ccy → ℚ) (rates : UsdRates) : Bool :=
  CCYS.all fun c =>
    if c = USD then true
    else
      match toUsd (bal c) c rates with
      | none => false
      | some u => decide (0 ≤ u) && decide (u ≤ TOL_USD_EQ)

/-- `t0BadnessUsdEq`: shorts penalized at twice their magnitude, idle
longs above the band penalized by the excess; non-finite conversions are
skipped. -/
def t0BadnessUsdEq (bal : Ccy → ℚ) (rates : UsdRates) : ℚ :=
  CCYS.foldl
    (fun e c =>
      if c = USD then e
      else
        match toUsd (bal c) c rates with
        | none => e
        | some u =>
            e + (if u < 0 then |u| * 2 else 0) + (if u > TOL_USD_EQ then u - TOL_USD_EQ else 0))
    0

/-- The flow part of a row total: the sum of buckets `1 .. MAX_DAYS-1`. -/
def flowSum (s : Scenario) (c : Ccy) : ℚ :=
  (((List.range' 1 (MAX_DAYS - 1))).map fun d => (s.flows c).getD d 0).sum

/-- The row-total invariant claimed for generated and rolled scenarios:
every non-USD row total strictly inside the configured band, the USD row
total at least the funding floor. -/
def rowInvariant (s : Scenario) : Prop :=
  (∀ c, c ≠ USD →
    NONUSD_ROW_TOTAL_MIN < rowTotal s c ∧ rowTotal s c < NONUSD_ROW_TOTAL_MAX) ∧
  USD_MIN_ROW_TOTAL ≤ rowTotal s USD

/-- The random draws consumed by one `generateScenarioRaw` call: raw
balance draws, the USD extra-long draw, the three tiers of flow draws
with their two probability coins, and the row-total targets handed to
`enforceRowTotals`. -/
structure GenOracle where
  bal : Ccy → ℚ
  usdExtra : ℚ
  flowBase : ℕ → Ccy → ℚ
  flowMid : ℕ → Ccy → ℚ
  flowBig : ℕ → Ccy → ℚ
  coinMid : ℕ → Ccy → Bool
  coinBig : ℕ → Ccy → Bool
  targets : Ccy → ℚ

/-- `generateScenarioRaw`: random balances (USD forced long), random
flows on buckets `1..`, then `enforceRowTotals`. -/
def generateScenarioRaw (g : GenOracle) : Scenario :=
  enforceRowTotals
    { balances := fun c =>
        if c = USD then USD_BASE_LONG + ((jsRound g.usdExtra : ℤ) : ℚ)
        else ((jsRound (g.bal c) : ℤ) : ℚ)
      flows := fun c => (List.range MAX_DAYS).map fun d =>
        if d = 0 then 0
        else ((jsRound (g.flowBase d c) : ℤ) : ℚ)
          + (if g.coinMid d c then ((jsRound (g.flowMid d c) : ℤ) : ℚ) else 0)
          + (if g.coinBig d c then ((jsRound (g.flowBig d c) : ℤ) : ℚ) else 0) }
    g.targets

/-- The per-currency badness penalty (0 for USD and for a currency with
no finite conversion). -/
def ccyPenalty (bal : Ccy → ℚ) (rates : UsdRates) (c : Ccy) : ℚ :=
  if c = USD then 0
  else
    match toUsd (bal c) c rates with
    | none => 0
    | some u => (if u < 0 then |u| * 2 else 0) + (if u > TOL_USD_EQ then u - TOL_USD_EQ else 0)

/-- The penalty term named in the specification, with no USD guard. -/
def usdEqPenalty (rates : UsdRates) (bal : Ccy → ℚ) (c : Ccy) : ℚ :=
  (toUsd (bal c) c rates).elim 0
    (fun u => (if u < 0 then |u| * 2 else 0) + (if u > TOL_USD_EQ then u - TOL_USD_EQ else 0))

/-- Concrete balances: everything flat at zero. -/
def cexBalancesZero : Ccy → ℚ := fun _ => 0

/-- The initial rate snapshot: only USD has a finite rate (the source's
`makeEmptyRates` fills every other currency with NaN). -/
def cexRatesEmpty : UsdRates :=
  { usdPerCcy := fun c => if c = USD then some 1 else none
    status := RatesStatus.loading }

/-- The net amount a swap posts into the cell of currency `c` at
position `cell` (0 is the t+0 balance, `1 ≤ cell ≤ 79` the flow
buckets): buy notional at the near offset, rounded sell debit at the
near offset, reversed notional at the far offset, rounded forward credit
at the far offset. -/
def legDelta (t : SwapTrade) (c : Ccy) (cell : ℤ) : ℚ :=
  (if c = t.buyCcy ∧ t.nearOffset = cell then t.notionalBuy else 0)
    + (if c = t.sellCcy ∧ t.nearOffset = cell
       then -((jsRound (t.notionalBuy * t.spot) : ℤ) : ℚ) else 0)
    + (if c = t.buyCcy ∧ t.farOffset = cell then -t.notionalBuy else 0)
    + (if c = t.sellCcy ∧ t.farOffset = cell
       then ((jsRound (t.notionalBuy * t.fwd) : ℤ) : ℚ) else 0)

def MIN_SWAP_USD_EQ : ℚ := 2000000

def MAX_SWAP_USD_EQ : ℚ := 100000000

/-- `clampNotionalBuyToUsdEq`: uniformly rescale the buy notional so its
USD-equivalent lands in the configured band; reject only a trade whose
USD-equivalent is non-finite or non-positive; pass the trade through
untouched when rates are not "ok". -/
def clampNotionalBuyToUsdEq (t : SwapTrade) (rates : UsdRates) : Option SwapTrade :=
  if rates.status ≠ RatesStatus.ok then some t
  else
    match toUsd t.notionalBuy t.buyCcy rates with
    | none => none
    | some u =>
      if u ≤ 0 then none
      else if u < MIN_SWAP_USD_EQ then
        some { t with notionalBuy :=
          ((jsRound (t.notionalBuy * (MIN_SWAP_USD_EQ / u)) : ℤ) : ℚ) }
      else if u > MAX_SWAP_USD_EQ then
        some { t with notionalBuy :=
          ((jsRound (t.notionalBuy * (MAX_SWAP_USD_EQ / u)) : ℤ) : ℚ) }
      else some t

/-- The concrete trade of the C7 counterexample: one unit of a currency
whose rate is 1.5 million USD per unit. -/
def cexTradeSmall : SwapTrade :=
  { buyCcy := EUR, sellCcy := USD, notionalBuy := 1, nearOffset := 0, farOffset := 2,
    spot := 1, fwd := 1 }

def cexRatesBigEur : UsdRates :=
  { usdPerCcy := fun c => if c = EUR then some 1500000 else some 1
    status := RatesStatus.ok }

/-- The theoretical (pre-spread) forward points of `forwardFromSpot`. -/
def thePoints (spot : ℚ) (buyCcy sellCcy : Ccy) (days : ℚ) : ℚ :=
  spot * (1 + IR sellCcy * (clampQ days 0 3650 / 360))
      / (1 + IR buyCcy * (clampQ days 0 3650 / 360))
    - spot

/-- The concrete round-trip trade of the C8 counterexample: buy 3 JPY
against USD at a consistent spot of 0.5 USD per JPY, forward from
`forwardFromSpot` at a 2-day tenor. -/
def cexTradeRT : SwapTrade :=
  { buyCcy := JPY, sellCcy := USD, notionalBuy := 3, nearOffset := 0, farOffset := 2,
    spot := 1 / 2, fwd := forwardFromSpot (1 / 2) JPY USD 2 }

def cexRatesRT : UsdRates :=
  { usdPerCcy := fun c => if c = JPY then some (1 / 2) else some 1
    status := RatesStatus.ok }

/-- The `allPairs` list: every ordered pair of distinct currencies, in
the source's double-loop order. -/
def allPairs : List (Ccy × Ccy) :=
  CCYS.bind fun a => (CCYS.filter (fun b => b ≠ a)).map fun b => (a, b)

/-- Randomness of one `makeBadSwapDifferentPair` call: the chosen far
offset (2 with probability 0.7, else one of 3/5/7), the shuffled pair
order, and the notional target drawn for each attempted pair
(`rand(2m, 25m)` USD-equivalent). -/
structure BadOracle where
  farOff : ℤ
  pairOrder : List (Ccy × Ccy)
  target : Ccy × Ccy → ℚ

/-- The candidate trade built inside the `makeBadSwapDifferentPair`
loop body (the spot falls back to 1 when unavailable). -/
def mkBadCandidate (rates : UsdRates) (farOff : ℤ) (usdPer targetUsd : ℚ)
    (buyCcy sellCcy : Ccy) : SwapTrade :=
  let sp := (spotFromUsdRates buyCcy sellCcy rates).getD 1
  { buyCcy := buyCcy
    sellCcy := sellCcy
    notionalBuy := ((jsRound (targetUsd / usdPer) : ℤ) : ℚ)
    nearOffset := 0
    farOffset := farOff
    spot := sp
    fwd := forwardFromSpot sp buyCcy sellCcy ((max 1 (farOff - 0) : ℤ) : ℚ) }

/-- The pair-scanning loop of `makeBadSwapDifferentPair`: skip the
avoided pair, skip pairs with no positive finite buy rate or failing the
clamp, and accept the first candidate verified to strictly worsen the
badness. -/
def makeBadGo (s : Scenario) (rates : UsdRates) (avoid : Option (Ccy × Ccy))
    (farOff : ℤ) (tgt : Ccy × Ccy → ℚ) : List (Ccy × Ccy) → Option SwapTrade
  | [] => none
  | (buyCcy, sellCcy) :: rest =>
    if avoid = some (buyCcy, sellCcy) then makeBadGo s rates avoid farOff tgt rest
    else
      match rates.usdPerCcy buyCcy with
      | none => makeBadGo s rates avoid farOff tgt rest
      | some usdPer =>
        if usdPer ≤ 0 then makeBadGo s rates avoid farOff tgt rest
        else
          match clampNotionalBuyToUsdEq
              (mkBadCandidate rates farOff usdPer (tgt (buyCcy, sellCcy)) buyCcy sellCcy)
              rates with
          | none => makeBadGo s rates avoid farOff tgt rest
          | some clamped =>
            if t0BadnessUsdEq (applyFxSwap s clamped).balances rates
                > t0BadnessUsdEq s.balances rates then some clamped
            else makeBadGo s rates avoid farOff tgt rest

def makeBadSwapDifferentPair (s : Scenario) (rates : UsdRates)
    (avoid : Option (Ccy × Ccy)) (o : BadOracle) : Option SwapTrade :=
  makeBadGo s rates avoid o.farOff o.target o.pairOrder

/-- `makeSwapVsUsdToTargetOneCcy`: build the trade that moves one
currency to `targetUsdEq` against USD (`null` when the currency is USD,
has no finite conversion, or the spot is unavailable or zero — the
source's falsy check), then clamp it. -/
def makeSwapVsUsdToTargetOneCcy (s : Scenario) (rates : UsdRates) (ccy : Ccy)
    (targetUsdEq : ℚ) (farOffset : ℤ) : Option SwapTrade :=
  if ccy = USD then none
  else
    match toUsd (s.balances ccy) ccy rates with
    | none => none
    | some curUsd =>
      let deltaUsd := targetUsdEq - curUsd
      let bn : Option (Ccy × ℚ) :=
        if 0 ≤ deltaUsd then
          match rates.usdPerCcy ccy with
          | none => none
          | some usdPer =>
            if usdPer ≤ 0 then none
            else some (ccy, ((jsRound (deltaUsd / usdPer) : ℤ) : ℚ))
        else some (USD, ((jsRound |deltaUsd| : ℤ) : ℚ))
      match bn with
      | none => none
      | some (buy, notionalBuy) =>
        let sell := if buy = USD then ccy else USD
        match spotFromUsdRates buy sell rates with
        | none => none
        | some sp =>
          if sp = 0 then none
          else
            clampNotionalBuyToUsdEq
              { buyCcy := buy
                sellCcy := sell
                notionalBuy := notionalBuy
                nearOffset := 0
                farOffset := farOffset
                spot := sp
                fwd := forwardFromSpot sp buy sell ((max 1 (farOffset - 0) : ℤ) : ℚ) }
              rates

/-- One step of `pickWorstNonUsdByUsdEq`: keep the first currency
attaining the strictly largest badness. -/
def pickWorstStep (bal : Ccy → ℚ) (rates : UsdRates)
    (best : Option (Ccy × ℚ × ℚ)) (c : Ccy) : Option (Ccy × ℚ × ℚ) :=
  if c = USD then best
  else
    match toUsd (bal c) c rates with
    | none => best
    | some u =>
      let bad := if u < 0 then |u| * 2 else if u > TOL_USD_EQ then u - TOL_USD_EQ else 0
      match best with
      | none => some (c, bad, u)
      | some b => if bad > b.2.1 then some (c, bad, u) else best

def pickWorstNonUsdByUsdEq (bal : Ccy → ℚ) (rates : UsdRates) : Option (Ccy × ℚ × ℚ) :=
  CCYS.foldl (pickWorstStep bal rates) none

/-- Tile classification labels. -/
inductive TileCat
  | Best | Marginal | Worse
deriving DecidableEq, Repr

/-- A guided tile.  The random `id()` string and the formatted
counter-amount display label of the source are omitted (display-only);
`usdCost` already uses `none` for a non-finite cost. -/
structure GuidedTile where
  trade : SwapTrade
  category : TileCat
  scoreDelta : ℤ
  why : String
  usdCost : Option ℚ
deriving DecidableEq, Repr

def ccyName : Ccy → String
  | AUD => "AUD" | CAD => "CAD" | CHF => "CHF" | EUR => "EUR" | GBP => "GBP"
  | JPY => "JPY" | MXN => "MXN" | NZD => "NZD" | PHP => "PHP" | USD => "USD"

def makeGuidedTile (rates : UsdRates) (t : SwapTrade) (category : TileCat)
    (scoreDelta : ℤ) (why : String) : GuidedTile :=
  { trade := t
    category := category
    scoreDelta := scoreDelta
    why := why
    usdCost := swapUsdCost t rates }

/-- Randomness of one `buildGuidedFourTiles` call: the fallback's random
currency pick, the bad-swap oracle for the second Worse tile, and the
final shuffle (a permutation of the tile list in any real execution). -/
structure GuidedOracle where
  fallbackCcy : Ccy
  badO : BadOracle
  shuf : List GuidedTile → List GuidedTile

/-- The random USD-pair fallback used when the Best trade cannot be
built (`usdPer || 1` is the source's falsy-coalescing read). -/
def guidedFallback (rates : UsdRates) (buyCcy : Ccy) : Option SwapTrade :=
  let sp := (spotFromUsdRates buyCcy USD rates).getD 1
  let fw := forwardFromSpot sp buyCcy USD 2
  let usdPerOr1 :=
    match rates.usdPerCcy buyCcy with
    | none => 1
    | some k => if k = 0 then 1 else k
  clampNotionalBuyToUsdEq
    { buyCcy := buyCcy
      sellCcy := USD
      notionalBuy := ((jsRound (10000000 / usdPerOr1) : ℤ) : ℚ)
      nearOffset := 0
      farOffset := 2
      spot := sp
      fwd := fw }
    rates

def guidedFocus (s : Scenario) (rates : UsdRates) : Ccy :=
  ((pickWorstNonUsdByUsdEq s.balances rates).map (fun w => w.1)).getD EUR

/-- The half-size Marginal trade derived from the Best trade. -/
def guidedMarginal (rates : UsdRates) (best : SwapTrade) : SwapTrade :=
  let marginal : SwapTrade :=
    { best with notionalBuy := max 1 ((jsRound (best.notionalBuy * (1 / 2)) : ℤ) : ℚ) }
  (clampNotionalBuyToUsdEq marginal rates).getD marginal

/-- The direction-reversed Worse trade derived from the Best trade. -/
def guidedWorse1 (rates : UsdRates) (best : SwapTrade) : SwapTrade :=
  let worse1Base : SwapTrade :=
    { best with
      buyCcy := best.sellCcy
      sellCcy := best.buyCcy
      notionalBuy := best.notionalBuy
      spot := 1 / best.spot
      fwd := 1 / best.fwd }
  (clampNotionalBuyToUsdEq worse1Base rates).getD worse1Base

/-- The four tiles before the shuffle: Best, half-size Marginal, the
direction reversal, and the verified random bad trade (falling back to
the reversal when the search fails). -/
def guidedTileList (s : Scenario) (rates : UsdRates) (o : GuidedOracle)
    (focus : Ccy) (best : SwapTrade) : List GuidedTile :=
  let worse1 := guidedWorse1 rates best
  let worse2 :=
    (makeBadSwapDifferentPair s rates (some (worse1.buyCcy, worse1.sellCcy)) o.badO).getD worse1
  [makeGuidedTile rates best TileCat.Best 10
      ("Best: solves " ++ ccyName focus
        ++ " funding into the target range on t+0 (USD-equivalent)."),
    makeGuidedTile rates (guidedMarginal rates best) TileCat.Marginal 5
      ("Marginal: moves " ++ ccyName focus
        ++ " toward target, but only about half as effective as Best."),
    makeGuidedTile rates worse1 TileCat.Worse (-5)
      ("Worse: pushes " ++ ccyName focus ++ " away from target (wrong-way direction)."),
    makeGuidedTile rates worse2 TileCat.Worse (-5)
      "Worse: increases the funding risk today versus the objective."]

/-- The tail of `buildGuidedFourTiles` once a Best trade exists. -/
def guidedTilesFor (s : Scenario) (rates : UsdRates) (o : GuidedOracle)
    (focus : Ccy) (best : SwapTrade) : List GuidedTile :=
  o.shuf (guidedTileList s rates o focus best)

/-- `buildGuidedFourTiles`: Best trade for the worst currency (random
USD-pair fallback), then the Marginal / reversal / verified-bad tiles,
shuffled; empty when no trade can be built at all. -/
def buildGuidedFourTiles (s : Scenario) (rates : UsdRates) (o : GuidedOracle) :
    List GuidedTile :=
  match (makeSwapVsUsdToTargetOneCcy s rates (guidedFocus s rates)
      (clampQ 2500000 0 TOL_USD_EQ) 2).orElse
      (fun _ => guidedFallback rates o.fallbackCcy) with
  | none => []
  | some best => guidedTilesFor s rates o (guidedFocus s rates) best

/-! ### Basic planner -/

/-- A basic-mode suggestion (`id()` string omitted; `usdCost` is `none`
for a non-finite cost, the source's `null`). -/
structure BasicSuggestion where
  trade : SwapTrade
  isGood : Bool
  usdCost : Option ℚ
deriving DecidableEq, Repr

def mkBasicSuggestion (rates : UsdRates) (t : SwapTrade) (isGood : Bool) : BasicSuggestion :=
  { trade := t, isGood := isGood, usdCost := swapUsdCost t rates }

/-- Randomness of one `buildBasicPlanForDay` call: a bad-swap oracle per
phase-1 call, the far tenor picked from `[2,3,5,7]` on each phase-2
iteration (indexed by remaining fuel), and a bad-swap oracle per phase-3
call. -/
structure PlanOracle where
  bad1 : ℕ → BadOracle
  farPick : ℕ → ℤ
  bad3 : ℕ → BadOracle

/-- Phase 1: up to `BASIC_REQUIRED_BAD` bad suggestions, breaking on the
first failure; returns the plan, the last bad pair and the bad count. -/
def basicPhase1 (s : Scenario) (rates : UsdRates) (orc : ℕ → BadOracle) :
    ℕ → ℕ → Option (Ccy × Ccy) → List BasicSuggestion → ℕ →
      List BasicSuggestion × Option (Ccy × Ccy) × ℕ
  | 0, _, lastBad, plan, badCount => (plan, lastBad, badCount)
  | fuel + 1, idx, lastBad, plan, badCount =>
    match makeBadSwapDifferentPair s rates lastBad (orc idx) with
    | none => (plan, lastBad, badCount)
    | some bad =>
      basicPhase1 s rates orc fuel (idx + 1) (some (bad.buyCcy, bad.sellCcy))
        (plan ++ [mkBasicSuggestion rates bad false]) (badCount + 1)

/-- The inline worst-currency selection of the phase-2 loop.  The source
maps the non-USD currencies to their badness, filters out non-finite
conversions, sorts descending by badness with a stable sort and takes
the head; this fold returns exactly that head — the first currency
attaining the maximal badness. -/
def pickTopBad (bal : Ccy → ℚ) (rates : UsdRates) : Option (Ccy × ℚ × ℚ) :=
  (CCYS.filter (fun c => c ≠ USD)).foldl
    (fun best c =>
      match toUsd (bal c) c rates with
      | none => best
      | some u =>
        let bad := if u < 0 then |u| * 2 else if u > TOL_USD_EQ then u - TOL_USD_EQ else 0
        match best with
        | none => some (c, bad, u)
        | some b => if bad > b.2.1 then some (c, bad, u) else best)
    none

/-- Phase 2 (the `guard < 200` loop): solve the worst currency against
USD, keeping a suggestion only when simulation confirms a strict badness
decrease; `continue` costs one unit of fuel, exactly like the source's
loop counter. -/
def basicPhase2 (rates : UsdRates) (farPick : ℕ → ℤ) :
    ℕ → Scenario → List BasicSuggestion → Scenario × List BasicSuggestion
  | 0, s, plan => (s, plan)
  | fuel + 1, s, plan =>
    if BASIC_MAX_STEPS ≤ plan.length then (s, plan)
    else if solvedT0Long0to5mUsdEq s.balances rates then (s, plan)
    else
      match pickTopBad s.balances rates with
      | none => (s, plan)
      | some pick =>
        if pick.2.1 ≤ 0 then (s, plan)
        else
          match makeSwapVsUsdToTargetOneCcy s rates pick.1
              (clampQ 2500000 0 TOL_USD_EQ) (farPick fuel) with
          | none => (s, plan)
          | some t =>
            if t0BadnessUsdEq (applyFxSwap s t).balances rates
                < t0BadnessUsdEq s.balances rates then
              basicPhase2 rates farPick fuel (applyFxSwap s t)
                (plan ++ [mkBasicSuggestion rates t true])
            else basicPhase2 rates farPick fuel s plan

/-- Phase 3 (the padding `while` loop): more bad suggestions while the
plan is short of `BASIC_MIN_STEPS` and fewer than `BASIC_REQUIRED_BAD`
bads exist.  Each pass appends one suggestion, so `BASIC_MIN_STEPS`
units of fuel dominate the loop's real trip count. -/
def basicPhase3 (s : Scenario) (rates : UsdRates) (orc : ℕ → BadOracle) :
    ℕ → ℕ → Option (Ccy × Ccy) → List BasicSuggestion → ℕ → List BasicSuggestion
  | 0, _, _, plan, _ => plan
  | fuel + 1, idx, avoid, plan, badCount =>
    if plan.length < BASIC_MIN_STEPS ∧ plan.length < BASIC_MAX_STEPS
        ∧ badCount < BASIC_REQUIRED_BAD then
      match makeBadSwapDifferentPair s rates avoid (orc idx) with
      | none => plan
      | some bad =>
        basicPhase3 s rates orc fuel (idx + 1) (some (bad.buyCcy, bad.sellCcy))
          (plan ++ [mkBasicSuggestion rates bad false]) (badCount + 1)
    else plan

/-- `buildBasicPlanForDay`: three bad suggestions up front, verified
good suggestions until solved (simulating the good path), bad padding
under the caps, then the `slice(0, BASIC_MAX_STEPS)`. -/
def buildBasicPlanForDay (startScenario : Scenario) (rates : UsdRates) (o : PlanOracle) :
    List BasicSuggestion :=
  let p1 := basicPhase1 (shallowCopyScenario startScenario) rates o.bad1
    BASIC_REQUIRED_BAD 0 none [] 0
  let p2 := basicPhase2 rates o.farPick 200 (shallowCopyScenario startScenario) p1.1
  let p3 := basicPhase3 p2.1 rates o.bad3 BASIC_MIN_STEPS 0 p1.2.1 p2.2 p1.2.2
  p3.take BASIC_MAX_STEPS

/-- The good-path simulation: execute every good suggestion in plan
order, reject (skip) every bad one. -/
def simGoods (start : Scenario) (l : List BasicSuggestion) : Scenario :=
  l.foldl (fun s x => if x.isGood then applyFxSwap s x.trade else s) start

/-! ### Soundness of the verified bad-swap search -/

/-- C3 counterexample scenario: AUD sits at 2.4m USD-equivalent (inside
the band), everything else flat; badness is already zero. -/
def cexScnG : Scenario :=
  { balances := fun c => if c = AUD then 2400000 else 0
    flows := fun _ => List.replicate 80 0 }

def cexRatesG : UsdRates :=
  { usdPerCcy := fun _ => some 1
    status := RatesStatus.ok }

/-- One concrete draw of the guided randomness: far offset 2 (the 70%
branch), the unshuffled full pair list, a 20m USD-equivalent notional
target, the identity shuffle, fallback pick EUR (unused). -/
def cexOracleG : GuidedOracle :=
  { fallbackCcy := EUR
    badO := { farOff := 2, pairOrder := allPairs, target := fun _ => 20000000 }
    shuf := id }

def defaultTrade : SwapTrade :=
  { buyCcy := EUR, sellCcy := USD, notionalBuy := 0, nearOffset := 0, farOffset := 2,
    spot := 1, fwd := 1 }

def cexTileTrade (i : ℕ) : SwapTrade :=
  (((buildGuidedFourTiles cexScnG cexRatesG cexOracleG).get? i).map GuidedTile.trade).getD
    defaultTrade

/-- The Best trade the counterexample produces: clamp forces the 0.1m
gap up to the 2m minimum. -/
def cexBestTG : SwapTrade :=
  { buyCcy := AUD, sellCcy := USD, notionalBuy := 2000000, nearOffset := 0, farOffset := 2,
    spot := 1, fwd := forwardFromSpot 1 AUD USD ((max 1 (2 - 0) : ℤ) : ℚ) }

/-- Soundness of the good suggestions of a plan: every suggestion marked
good strictly reduces the badness of the scenario simulated up to it. -/
def GoodSound (start : Scenario) (rates : UsdRates) (plan : List BasicSuggestion) : Prop :=
  ∀ pre g post, plan = pre ++ g :: post → g.isGood = true →
    t0BadnessUsdEq (applyFxSwap (simGoods start pre) g.trade).balances rates
      < t0BadnessUsdEq (simGoods start pre).balances rates

/-- C4 counterexample rates: only USD converts; every other currency's
rate is NaN (exactly the source's `makeEmptyRates()` shape promoted to
"ok" status). -/
def cexRates4 : UsdRates :=
  { usdPerCcy := fun c => if c = USD then some 1 else none
    status := RatesStatus.ok }

def cexScn4 : Scenario :=
  { balances := fun _ => 0
    flows := fun _ => List.replicate 80 0 }

def cexBad4 : BadOracle :=
  { farOff := 2, pairOrder := allPairs, target := fun _ => 20000000 }

def cexO4 : PlanOracle :=
  { bad1 := fun _ => cexBad4
    farPick := fun _ => 2
    bad3 := fun _ => cexBad4 }

/-- A concrete scenario exercising the day roll on JPY: an inflow of 1m
tomorrow and an outflow of 0.5m the day after. -/
def wScn5 : Scenario :=
  { balances := fun _ => 0
    flows := fun c => if c = JPY then [0, 1000000, -500000] ++ List.replicate 77 0
             else List.replicate 80 0 }

def wRoll5 : RollOracle :=
  { edge := fun _ => 0
    targets := fun _ => 1000000 }

/-- A concrete in-band trade for the clamp witness. -/
def wTrade7 : SwapTrade :=
  { buyCcy := EUR, sellCcy := USD, notionalBuy := 3000000, nearOffset := 0, farOffset := 2,
    spot := 1, fwd := 1 }

/-- A concrete large round-trip trade for the cost witness. -/
def wTradeRT : SwapTrade :=
  { buyCcy := JPY, sellCcy := USD, notionalBuy := 1000000, nearOffset := 0, farOffset := 2,
    spot := 1 / 2, fwd := forwardFromSpot (1 / 2) JPY USD 2 }

/-- `jsRound` is the floor of `q + 1/2`. -/
theorem jsRound_eq_floor (q : ℚ) : jsRound q = ⌊q + 1 / 2⌋ := by
  rw [jsRound, Rat.floor_def', ← Rat.floor_def]

/-! ### List helper lemmas -/

theorem getD_set_of_ne {l : List ℚ} {i j : ℕ} (h : i ≠ j) (v : ℚ) :
    (l.set i v).getD j 0 = l.getD j 0 := by
  simp [List.getD_eq_getElem?_getD, List.getElem?_set_ne h]

theorem getD_set_of_lt {l : List ℚ} {i : ℕ} (h : i < l.length) (v : ℚ) :
    (l.set i v).getD i 0 = v := by
  simp [List.getD_eq_getElem?_getD, List.getElem?_set_self, h]

theorem getD_map_range {n : ℕ} (f : ℕ → ℚ) (d : ℕ) :
    (((List.range n).map f)).getD d 0 = if d < n then f d else 0 := by
  by_cases h : d < n
  · simp [List.getD_eq_getElem?_getD, List.getElem?_map, List.getElem?_range, h]
  · have hnone : (List.range n)[d]? = none :=
      List.getElem?_eq_none (by simpa [List.length_range] using Nat.le_of_not_lt h)
    simp [List.getD_eq_getElem?_getD, List.getElem?_map, hnone, h]

theorem foldl_add_eq_add_sum (g : ℕ → ℚ) :
    ∀ (l : List ℕ) (a : ℚ), l.foldl (fun t d => t + g d) a = a + (l.map g).sum
  | [], a => by simp
  | d :: l, a => by
    rw [List.foldl_cons, foldl_add_eq_add_sum g l (a + g d)]
    simp [add_assoc]

/-! ### Row totals -/

theorem rowTotal_eq_flowSum (s : Scenario) (c : Ccy) :
    rowTotal s c = s.balances c + flowSum s c := by
  rw [rowTotal, flowSum, foldl_add_eq_add_sum]

theorem rowTotal_congr {s1 s2 : Scenario} {c : Ccy}
    (hb : s1.balances c = s2.balances c) (hf : s1.flows c = s2.flows c) :
    rowTotal s1 c = rowTotal s2 c := by
  simp only [rowTotal, hb, hf]

theorem setFlowAt_balances (s : Scenario) (c : Ccy) (i : ℕ) (v : ℚ) :
    (setFlowAt s c i v).balances = s.balances := rfl

theorem setFlowAt_flows_self (s : Scenario) (c : Ccy) (i : ℕ) (v : ℚ) :
    (setFlowAt s c i v).flows c = (s.flows c).set i v := by
  simp [setFlowAt]

theorem setFlowAt_flows_ne (s : Scenario) {c c2 : Ccy} (h : c2 ≠ c) (i : ℕ) (v : ℚ) :
    (setFlowAt s c i v).flows c2 = s.flows c2 := by
  simp [setFlowAt, Function.update_noteq h]

theorem range'_skipLast : List.range' 1 (MAX_DAYS - 1) = List.range' 1 78 ++ [79] := by
  decide

theorem flowSum_set_last (s : Scenario) (c : Ccy) (hlen : (s.flows c).length = 80) (v : ℚ) :
    flowSum (setFlowAt s c (MAX_DAYS - 1) v) c
      = flowSum s c - (s.flows c).getD (MAX_DAYS - 1) 0 + v := by
  have hset : (setFlowAt s c (MAX_DAYS - 1) v).flows c = (s.flows c).set 79 v := by
    rw [setFlowAt_flows_self]; rfl
  have h79 : (79 : ℕ) < (s.flows c).length := by rw [hlen]; omega
  have hcong : ∀ d ∈ List.range' 1 78,
      ((s.flows c).set 79 v).getD d 0 = (s.flows c).getD d 0 := by
    intro d hd
    have hd2 : 1 ≤ d ∧ d < 1 + 78 := List.mem_range'_1.1 hd
    exact getD_set_of_ne (by omega) v
  rw [flowSum, flowSum, hset, range'_skipLast]
  rw [List.map_append, List.map_append, List.sum_append, List.sum_append]
  rw [List.map_congr_left hcong]
  have h79v : ((s.flows c).set 79 v).getD 79 0 = v := getD_set_of_lt h79 v
  simp only [List.map_cons, List.map_nil, List.sum_cons, List.sum_nil, h79v]
  have : ((MAX_DAYS : ℕ) - 1) = 79 := by decide
  rw [this]
  ring

theorem flowSum_congr {s1 s2 : Scenario} {c : Ccy} (hf : s1.flows c = s2.flows c) :
    flowSum s1 c = flowSum s2 c := by
  simp only [flowSum, hf]

theorem rowTotal_set_last (s : Scenario) (c : Ccy) (hlen : (s.flows c).length = 80) (v : ℚ) :
    rowTotal (setFlowAt s c (MAX_DAYS - 1) v) c
      = rowTotal s c - (s.flows c).getD (MAX_DAYS - 1) 0 + v := by
  rw [rowTotal_eq_flowSum, rowTotal_eq_flowSum, setFlowAt_balances,
    flowSum_set_last s c hlen v]
  ring

/-! ### Properties of `enforceOne` -/

theorem enforceOne_balances (t : ℚ) (o : Scenario) (c : Ccy) :
    (enforceOne t o c).balances = o.balances := by
  simp only [enforceOne, apply_ite Scenario.balances, setFlowAt_balances, ite_self]

theorem enforceOne_flows_ne (t : ℚ) (o : Scenario) {c c2 : Ccy} (h : c2 ≠ c) :
    (enforceOne t o c).flows c2 = o.flows c2 := by
  simp only [enforceOne, apply_ite (fun s : Scenario => s.flows c2),
    setFlowAt_flows_ne _ h, ite_self]

theorem enforceOne_flows_getD (t : ℚ) (o : Scenario) (c : Ccy) {d : ℕ} (hd : d ≠ 79) :
    ((enforceOne t o c).flows c).getD d 0 = (o.flows c).getD d 0 := by
  have hM : MAX_DAYS - 1 = 79 := rfl
  simp only [enforceOne, hM, apply_ite (fun s : Scenario => s.flows c), setFlowAt_flows_self]
  split
  · rw [getD_set_of_ne (Ne.symm hd), getD_set_of_ne (Ne.symm hd)]
  · rw [getD_set_of_ne (Ne.symm hd)]

theorem enforceOne_flows_length (t : ℚ) (o : Scenario) (c c2 : Ccy) :
    ((enforceOne t o c).flows c2).length = (o.flows c2).length := by
  by_cases hc : c2 = c
  · subst hc
    simp only [enforceOne, apply_ite (fun s : Scenario => s.flows c2), setFlowAt_flows_self]
    split <;> simp [List.length_set]
  · rw [enforceOne_flows_ne _ _ hc]

theorem target_bounds {t : ℚ} (h1 : 1000000 ≤ t) (h2 : t ≤ 9000000) :
    (1000000 : ℚ) ≤ ((jsRound (t / 10000) * 10000 : ℤ) : ℚ) ∧
      ((jsRound (t / 10000) * 10000 : ℤ) : ℚ) ≤ 9000000 := by
  have hf : jsRound (t / 10000) = ⌊t / 10000 + 1 / 2⌋ := jsRound_eq_floor _
  have hlb : (100 : ℤ) ≤ ⌊t / 10000 + 1 / 2⌋ := by
    rw [Int.le_floor]; push_cast; linarith
  have hub : ⌊t / 10000 + 1 / 2⌋ < 901 := by
    rw [Int.floor_lt]; push_cast; linarith
  constructor
  · have hz : (1000000 : ℤ) ≤ jsRound (t / 10000) * 10000 := by rw [hf]; omega
    exact_mod_cast hz
  · have hz : jsRound (t / 10000) * 10000 ≤ (9000000 : ℤ) := by rw [hf]; omega
    exact_mod_cast hz

theorem enforceOne_rowTotal (t : ℚ) (o : Scenario) (c : Ccy)
    (hlen : (o.flows c).length = 80) (h1 : 1000000 ≤ t) (h2 : t ≤ 9000000) :
    1000000 ≤ rowTotal (enforceOne t o c) c ∧ rowTotal (enforceOne t o c) c ≤ 9000000 := by
  obtain ⟨hT1, hT2⟩ := target_bounds h1 h2
  have hrow : rowTotal (setFlowAt o c (MAX_DAYS - 1)
      ((o.flows c).getD (MAX_DAYS - 1) 0
        + (((jsRound (t / 10000) * 10000 : ℤ) : ℚ) - rowTotal o c))) c
      = ((jsRound (t / 10000) * 10000 : ℤ) : ℚ) := by
    rw [rowTotal_set_last o c hlen]; ring
  have hband : ¬¬(rowTotal (setFlowAt o c (MAX_DAYS - 1)
      ((o.flows c).getD (MAX_DAYS - 1) 0
        + (((jsRound (t / 10000) * 10000 : ℤ) : ℚ) - rowTotal o c))) c > NONUSD_ROW_TOTAL_MIN
      ∧ rowTotal (setFlowAt o c (MAX_DAYS - 1)
      ((o.flows c).getD (MAX_DAYS - 1) 0
        + (((jsRound (t / 10000) * 10000 : ℤ) : ℚ) - rowTotal o c))) c
        < NONUSD_ROW_TOTAL_MAX) := by
    rw [hrow]
    refine not_not_intro ⟨?_, ?_⟩
    · show NONUSD_ROW_TOTAL_MIN < _
      rw [NONUSD_ROW_TOTAL_MIN]; linarith
    · rw [NONUSD_ROW_TOTAL_MAX]; linarith
  unfold enforceOne
  rw [if_neg hband, hrow]
  exact ⟨hT1, hT2⟩

/-! ### Properties of the `enforceRowTotals` fold -/

theorem enforceStep_balances (tr : Ccy → ℚ) (o : Scenario) (a : Ccy) :
    (enforceStep tr o a).balances = o.balances := by
  unfold enforceStep
  split
  · rfl
  · exact enforceOne_balances _ _ _

theorem enforceStep_flows_getD (tr : Ccy → ℚ) (o : Scenario) (a c : Ccy) {d : ℕ}
    (hd : d ≠ 79) :
    ((enforceStep tr o a).flows c).getD d 0 = (o.flows c).getD d 0 := by
  unfold enforceStep
  split
  · rfl
  · by_cases hc : c = a
    · subst hc; exact enforceOne_flows_getD _ _ _ hd
    · rw [enforceOne_flows_ne _ _ hc]

theorem enforceStep_flows_usd (tr : Ccy → ℚ) (o : Scenario) (a : Ccy) :
    (enforceStep tr o a).flows USD = o.flows USD := by
  unfold enforceStep
  split
  · rfl
  · next h => exact enforceOne_flows_ne _ _ (fun hh => h hh.symm)

theorem enforceStep_flows_ne (tr : Ccy → ℚ) (o : Scenario) {a c : Ccy} (h : c ≠ a) :
    (enforceStep tr o a).flows c = o.flows c := by
  unfold enforceStep
  split
  · rfl
  · exact enforceOne_flows_ne _ _ h

theorem enforceStep_flows_length (tr : Ccy → ℚ) (o : Scenario) (a c : Ccy) :
    ((enforceStep tr o a).flows c).length = (o.flows c).length := by
  unfold enforceStep
  split
  · rfl
  · exact enforceOne_flows_length _ _ _ _

theorem foldl_enforceStep_balances (tr : Ccy → ℚ) :
    ∀ (l : List Ccy) (o : Scenario), (l.foldl (enforceStep tr) o).balances = o.balances
  | [], _ => rfl
  | a :: l, o => by
    rw [List.foldl_cons, foldl_enforceStep_balances tr l, enforceStep_balances]

theorem foldl_enforceStep_flows_getD (tr : Ccy → ℚ) {d : ℕ} (hd : d ≠ 79) :
    ∀ (l : List Ccy) (o : Scenario) (c : Ccy),
      ((l.foldl (enforceStep tr) o).flows c).getD d 0 = (o.flows c).getD d 0
  | [], _, _ => rfl
  | a :: l, o, c => by
    rw [List.foldl_cons, foldl_enforceStep_flows_getD tr hd l, enforceStep_flows_getD _ _ _ _ hd]

theorem foldl_enforceStep_flows_usd (tr : Ccy → ℚ) :
    ∀ (l : List Ccy) (o : Scenario), (l.foldl (enforceStep tr) o).flows USD = o.flows USD
  | [], _ => rfl
  | a :: l, o => by
    rw [List.foldl_cons, foldl_enforceStep_flows_usd tr l, enforceStep_flows_usd]

theorem foldl_enforceStep_flows_notMem (tr : Ccy → ℚ) :
    ∀ (l : List Ccy) (o : Scenario) (c : Ccy), c ∉ l →
      (l.foldl (enforceStep tr) o).flows c = o.flows c
  | [], _, _, _ => rfl
  | a :: l, o, c, hc => by
    rw [List.foldl_cons,
      foldl_enforceStep_flows_notMem tr l _ c (fun h => hc (List.mem_cons_of_mem a h)),
      enforceStep_flows_ne tr o (fun h => hc (by rw [h]; exact List.mem_cons_self a l))]

theorem foldl_enforceStep_flows_length (tr : Ccy → ℚ) :
    ∀ (l : List Ccy) (o : Scenario) (c : Ccy),
      ((l.foldl (enforceStep tr) o).flows c).length = (o.flows c).length
  | [], _, _ => rfl
  | a :: l, o, c => by
    rw [List.foldl_cons, foldl_enforceStep_flows_length tr l, enforceStep_flows_length]

theorem foldl_enforceStep_rowTotal (tr : Ccy → ℚ) :
    ∀ (l : List Ccy), l.Nodup → ∀ (o : Scenario) (c : Ccy), c ∈ l → c ≠ USD →
      (o.flows c).length = 80 → 1000000 ≤ tr c → tr c ≤ 9000000 →
      1000000 ≤ rowTotal (l.foldl (enforceStep tr) o) c
        ∧ rowTotal (l.foldl (enforceStep tr) o) c ≤ 9000000
  | [], _, _, _, hc, _, _, _, _ => absurd hc (List.not_mem_nil _)
  | a :: l, hnd, o, c, hc, hcu, hlen, ht1, ht2 => by
    rw [List.nodup_cons] at hnd
    rw [List.foldl_cons]
    rcases List.mem_cons.1 hc with hca | hcl
    · subst hca
      have hstep : enforceStep tr o c = enforceOne (tr c) o c := if_neg hcu
      have hfrozen : rowTotal (l.foldl (enforceStep tr) (enforceStep tr o c)) c
          = rowTotal (enforceStep tr o c) c := by
        exact rowTotal_congr
          (by rw [foldl_enforceStep_balances])
          (foldl_enforceStep_flows_notMem tr l _ c hnd.1)
      rw [hfrozen, hstep]
      exact enforceOne_rowTotal (tr c) o c hlen ht1 ht2
    · exact foldl_enforceStep_rowTotal tr l hnd.2 _ c hcl hcu
        (by rw [enforceStep_flows_length]; exact hlen) ht1 ht2

/-! ### The specification of `enforceRowTotals` -/

theorem usdTopUp_flows (o : Scenario) : (usdTopUp o).flows = o.flows := by
  unfold usdTopUp
  split <;> rfl

theorem usdTopUp_balances_ne (o : Scenario) {c : Ccy} (hc : c ≠ USD) :
    (usdTopUp o).balances c = o.balances c := by
  unfold usdTopUp
  split
  · exact Function.update_noteq hc _ _
  · rfl

theorem usdTopUp_balances_usd (o : Scenario) :
    (usdTopUp o).balances USD
      = o.balances USD
        + (if rowTotal o USD < USD_MIN_ROW_TOTAL
           then USD_MIN_ROW_TOTAL - rowTotal o USD else 0) := by
  unfold usdTopUp
  split
  · exact Function.update_same USD
      (o.balances USD + (USD_MIN_ROW_TOTAL - rowTotal o USD)) o.balances
  · exact (add_zero _).symm

theorem enforceRowTotals_flows (s : Scenario) (tr : Ccy → ℚ) :
    (enforceRowTotals s tr).flows = (CCYS.foldl (enforceStep tr) s).flows := by
  rw [show enforceRowTotals s tr = usdTopUp (CCYS.foldl (enforceStep tr) s) from rfl]
  rw [usdTopUp_flows]

theorem enforceRowTotals_balances_ne (s : Scenario) (tr : Ccy → ℚ) {c : Ccy} (hc : c ≠ USD) :
    (enforceRowTotals s tr).balances c = s.balances c := by
  rw [show enforceRowTotals s tr = usdTopUp (CCYS.foldl (enforceStep tr) s) from rfl]
  rw [usdTopUp_balances_ne _ hc, foldl_enforceStep_balances]

theorem enforceRowTotals_rowTotal_usd_frame (s : Scenario) (tr : Ccy → ℚ) :
    rowTotal (CCYS.foldl (enforceStep tr) s) USD = rowTotal s USD :=
  rowTotal_congr (by rw [foldl_enforceStep_balances])
    (by rw [foldl_enforceStep_flows_usd])

theorem enforceRowTotals_balances_usd (s : Scenario) (tr : Ccy → ℚ) :
    (enforceRowTotals s tr).balances USD
      = s.balances USD
        + (if rowTotal s USD < USD_MIN_ROW_TOTAL
           then USD_MIN_ROW_TOTAL - rowTotal s USD else 0) := by
  rw [show enforceRowTotals s tr = usdTopUp (CCYS.foldl (enforceStep tr) s) from rfl]
  rw [usdTopUp_balances_usd, foldl_enforceStep_balances,
    enforceRowTotals_rowTotal_usd_frame]

theorem enforceRowTotals_flows_usd (s : Scenario) (tr : Ccy → ℚ) :
    (enforceRowTotals s tr).flows USD = s.flows USD := by
  rw [enforceRowTotals_flows, foldl_enforceStep_flows_usd]

theorem enforceRowTotals_flows_getD (s : Scenario) (tr : Ccy → ℚ) (c : Ccy) {d : ℕ}
    (hd : d ≠ 79) :
    ((enforceRowTotals s tr).flows c).getD d 0 = (s.flows c).getD d 0 := by
  rw [enforceRowTotals_flows, foldl_enforceStep_flows_getD tr hd]

theorem enforceRowTotals_flows_length (s : Scenario) (tr : Ccy → ℚ) (c : Ccy) :
    ((enforceRowTotals s tr).flows c).length = (s.flows c).length := by
  rw [enforceRowTotals_flows, foldl_enforceStep_flows_length]

theorem enforceRowTotals_rowTotal_ne (s : Scenario) (tr : Ccy → ℚ) {c : Ccy} (hc : c ≠ USD)
    (hlen : (s.flows c).length = 80) (ht1 : 1000000 ≤ tr c) (ht2 : tr c ≤ 9000000) :
    1000000 ≤ rowTotal (enforceRowTotals s tr) c
      ∧ rowTotal (enforceRowTotals s tr) c ≤ 9000000 := by
  have hcmem : c ∈ CCYS := by cases c <;> decide
  have hnd : CCYS.Nodup := by decide
  have hcong : rowTotal (enforceRowTotals s tr) c
      = rowTotal (CCYS.foldl (enforceStep tr) s) c := by
    refine rowTotal_congr ?_ (by rw [enforceRowTotals_flows])
    rw [enforceRowTotals_balances_ne s tr hc, foldl_enforceStep_balances]
  rw [hcong]
  exact foldl_enforceStep_rowTotal tr CCYS hnd _ c hcmem hc (by exact hlen) ht1 ht2

theorem enforceRowTotals_rowTotal_usd (s : Scenario) (tr : Ccy → ℚ) :
    rowTotal (enforceRowTotals s tr) USD = max (rowTotal s USD) USD_MIN_ROW_TOTAL := by
  have hflow : flowSum (enforceRowTotals s tr) USD = flowSum s USD :=
    flowSum_congr (enforceRowTotals_flows_usd s tr)
  rw [rowTotal_eq_flowSum, hflow, enforceRowTotals_balances_usd]
  rw [rowTotal_eq_flowSum s USD]
  split
  · next h => rw [max_eq_right (le_of_lt h)]; ring
  · next h => rw [max_eq_left (le_of_not_lt h)]; ring

/-! ### The row-total invariant and the generators that establish it -/

theorem length_map_range_flows (f : ℕ → ℚ) : (((List.range MAX_DAYS)).map f).length = 80 := by
  simp [List.length_map, List.length_range]
  rfl

/-- C1. `enforceRowTotals` forces the row-total invariant whatever
scenario it is handed, and `generateScenarioRaw` and `rollValueDate`
inherit it because they both return `enforceRowTotals` of their
intermediate scenario. -/
theorem enforceRowTotals_rowInvariant
    (s : Scenario) (tr : Ccy → ℚ)
    (hlen : ∀ c, (s.flows c).length = 80)
    (htr : ∀ c, 1000000 ≤ tr c ∧ tr c ≤ 9000000) :
    rowInvariant (enforceRowTotals s tr)
      ∧ (∀ g : GenOracle, (∀ c, 1000000 ≤ g.targets c ∧ g.targets c ≤ 9000000) →
          rowInvariant (generateScenarioRaw g))
      ∧ (∀ (s2 : Scenario) (o : RollOracle),
          (∀ c, 1000000 ≤ o.targets c ∧ o.targets c ≤ 9000000) →
          rowInvariant (rollValueDate s2 o)) := by
  have main : ∀ (s3 : Scenario) (tr3 : Ccy → ℚ), (∀ c, (s3.flows c).length = 80) →
      (∀ c, 1000000 ≤ tr3 c ∧ tr3 c ≤ 9000000) → rowInvariant (enforceRowTotals s3 tr3) := by
    intro s3 tr3 hlen3 htr3
    constructor
    · intro c hc
      obtain ⟨hb1, hb2⟩ :=
        enforceRowTotals_rowTotal_ne s3 tr3 hc (hlen3 c) (htr3 c).1 (htr3 c).2
      constructor
      · rw [NONUSD_ROW_TOTAL_MIN]; linarith
      · rw [NONUSD_ROW_TOTAL_MAX]; linarith
    · rw [enforceRowTotals_rowTotal_usd]
      exact le_max_right _ _
  refine ⟨main s tr hlen htr, ?_, ?_⟩
  · intro g hg
    exact main _ g.targets (fun c => length_map_range_flows _) hg
  · intro s2 o ho
    exact main _ o.targets (fun c => length_map_range_flows _) ho

/-- C10. Frame property of `enforceRowTotals`: only the final flow
bucket of each non-USD currency and the USD t+0 balance change; the USD
balance moves only to lift the USD row total exactly to the floor. -/
theorem enforceRowTotals_frame (s : Scenario) (tr : Ccy → ℚ) :
    (∀ c, c ≠ USD → (enforceRowTotals s tr).balances c = s.balances c)
      ∧ (enforceRowTotals s tr).balances USD
          = s.balances USD
            + (if rowTotal s USD < USD_MIN_ROW_TOTAL
               then USD_MIN_ROW_TOTAL - rowTotal s USD else 0)
      ∧ rowTotal (enforceRowTotals s tr) USD = max (rowTotal s USD) USD_MIN_ROW_TOTAL
      ∧ (∀ c (d : ℕ), d ≤ 78 →
          ((enforceRowTotals s tr).flows c).getD d 0 = (s.flows c).getD d 0)
      ∧ (enforceRowTotals s tr).flows USD = s.flows USD
      ∧ (∀ c, ((enforceRowTotals s tr).flows c).length = (s.flows c).length) :=
  ⟨fun _ hc => enforceRowTotals_balances_ne s tr hc,
    enforceRowTotals_balances_usd s tr,
    enforceRowTotals_rowTotal_usd s tr,
    fun c d hd => enforceRowTotals_flows_getD s tr c (by omega),
    enforceRowTotals_flows_usd s tr,
    fun c => enforceRowTotals_flows_length s tr c⟩

/-- C5. The day roll: bucket 1 is folded into the t+0 balance, buckets
shift down one day, bucket 0 is zeroed; for a non-USD currency the
re-normalization touches nothing below bucket 79. -/
theorem rollValueDate_def (s : Scenario) (o : RollOracle) :
    rollValueDate s o = enforceRowTotals (rollShift s o.edge) o.targets := rfl

theorem rollShift_balances (s : Scenario) (edge : Ccy → ℚ) (c : Ccy) :
    (rollShift s edge).balances c = s.balances c + (s.flows c).getD 1 0 := rfl

theorem rollShift_flows (s : Scenario) (edge : Ccy → ℚ) (c : Ccy) :
    (rollShift s edge).flows c
      = (List.range MAX_DAYS).map (fun i =>
          if i = 0 then 0
          else if i = MAX_DAYS - 1 then ((jsRound (edge c) : ℤ) : ℚ)
          else (s.flows c).getD (i + 1) 0) := rfl

theorem rollValueDate_shift_cells (s : Scenario) (o : RollOracle) {c : Ccy} (hc : c ≠ USD)
    {d : ℕ} (hd1 : 1 ≤ d) (hd2 : d ≤ 78) :
    (rollValueDate s o).balances c = s.balances c + (s.flows c).getD 1 0
      ∧ ((rollValueDate s o).flows c).getD 0 0 = 0
      ∧ ((rollValueDate s o).flows c).getD d 0 = (s.flows c).getD (d + 1) 0 := by
  have hM : MAX_DAYS = 80 := rfl
  refine ⟨?_, ?_, ?_⟩
  · rw [rollValueDate_def, enforceRowTotals_balances_ne _ _ hc, rollShift_balances]
  · rw [rollValueDate_def, enforceRowTotals_flows_getD _ _ _ (by norm_num : (0 : ℕ) ≠ 79),
      rollShift_flows, getD_map_range, hM]
    norm_num
  · rw [rollValueDate_def, enforceRowTotals_flows_getD _ _ _ (by omega : d ≠ 79),
      rollShift_flows, getD_map_range, hM]
    rw [if_pos (by omega : d < 80), if_neg (by omega : ¬ d = 0),
      if_neg (by omega : ¬ d = 80 - 1)]

/-! ### The SOLVED objective -/

theorem mem_CCYS (c : Ccy) : c ∈ CCYS := by cases c <;> decide

/-- The objective, as a per-currency predicate. -/
theorem solved_eq_true_iff (bal : Ccy → ℚ) (rates : UsdRates) :
    solvedT0Long0to5mUsdEq bal rates = true
      ↔ ∀ c, c ≠ USD →
          ∃ u, toUsd (bal c) c rates = some u ∧ 0 ≤ u ∧ u ≤ TOL_USD_EQ := by
  rw [solvedT0Long0to5mUsdEq, List.all_eq_true]
  constructor
  · intro h c hc
    have hcm := h c (mem_CCYS c)
    rw [if_neg hc] at hcm
    cases htu : toUsd (bal c) c rates with
    | none => rw [htu] at hcm; exact absurd hcm (by simp)
    | some u =>
      rw [htu] at hcm
      simp only [Bool.and_eq_true, decide_eq_true_eq] at hcm
      exact ⟨u, rfl, hcm.1, hcm.2⟩
  · intro h c _
    by_cases hc : c = USD
    · rw [if_pos hc]
    · obtain ⟨u, hu, h0, h5⟩ := h c hc
      rw [if_neg hc, hu]
      simp only [Bool.and_eq_true, decide_eq_true_eq]
      exact ⟨h0, h5⟩

/-- C2. `solvedT0Long0to5mUsdEq` holds exactly when every non-USD
currency has a finite USD-equivalent t+0 balance inside `[0, TOL]`;
a missing rate can only make it false, and the USD entry of the balance
map is never consulted. -/
theorem solvedT0Long0to5mUsdEq_iff (bal : Ccy → ℚ) (rates : UsdRates) :
    (solvedT0Long0to5mUsdEq bal rates = true
      ↔ ∀ c, c ≠ USD →
          ∃ u, toUsd (bal c) c rates = some u ∧ 0 ≤ u ∧ u ≤ TOL_USD_EQ)
    ∧ ∀ b : ℚ, solvedT0Long0to5mUsdEq (Function.update bal USD b) rates
        = solvedT0Long0to5mUsdEq bal rates := by
  have main : ∀ bal2 : Ccy → ℚ,
      solvedT0Long0to5mUsdEq bal2 rates = true
        ↔ ∀ c, c ≠ USD →
            ∃ u, toUsd (bal2 c) c rates = some u ∧ 0 ≤ u ∧ u ≤ TOL_USD_EQ :=
    fun bal2 => solved_eq_true_iff bal2 rates
  refine ⟨main bal, fun b => ?_⟩
  have hsame : ∀ c, c ≠ USD → toUsd (Function.update bal USD b c) c rates
      = toUsd (bal c) c rates := by
    intro c hc
    rw [Function.update_noteq hc]
  have hiff : (solvedT0Long0to5mUsdEq (Function.update bal USD b) rates = true)
      ↔ (solvedT0Long0to5mUsdEq bal rates = true) := by
    rw [main (Function.update bal USD b), main bal]
    constructor
    · intro h c hc
      obtain ⟨u, hu, hb⟩ := h c hc
      exact ⟨u, (hsame c hc) ▸ hu, hb⟩
    · intro h c hc
      obtain ⟨u, hu, hb⟩ := h c hc
      exact ⟨u, (hsame c hc).symm ▸ hu, hb⟩
  cases hb2 : solvedT0Long0to5mUsdEq bal rates with
  | true => exact hiff.mpr hb2
  | false =>
    cases hb1 : solvedT0Long0to5mUsdEq (Function.update bal USD b) rates with
    | true => rw [← hb2, hiff.mp hb1]
    | false => rfl

/-! ### The badness score -/

theorem ccyPenalty_nonneg (bal : Ccy → ℚ) (rates : UsdRates) (c : Ccy) :
    0 ≤ ccyPenalty bal rates c := by
  rw [ccyPenalty]
  split
  · exact le_refl 0
  · cases toUsd (bal c) c rates with
    | none => exact le_refl 0
    | some u =>
      have h1 : (0 : ℚ) ≤ if u < 0 then |u| * 2 else 0 := by
        split
        · positivity
        · exact le_refl 0
      have h2 : (0 : ℚ) ≤ if u > TOL_USD_EQ then u - TOL_USD_EQ else 0 := by
        split
        · next h => linarith
        · exact le_refl 0
      exact add_nonneg h1 h2

theorem badness_step (bal : Ccy → ℚ) (rates : UsdRates) (e : ℚ) (c : Ccy) :
    (if c = USD then e
      else
        match toUsd (bal c) c rates with
        | none => e
        | some u =>
            e + (if u < 0 then |u| * 2 else 0)
              + (if u > TOL_USD_EQ then u - TOL_USD_EQ else 0))
      = e + ccyPenalty bal rates c := by
  rw [ccyPenalty]
  by_cases hc : c = USD
  · rw [if_pos hc, if_pos hc, add_zero]
  · rw [if_neg hc, if_neg hc]
    cases toUsd (bal c) c rates with
    | none => exact (add_zero e).symm
    | some u => exact add_assoc e _ _

theorem badness_foldl (bal : Ccy → ℚ) (rates : UsdRates) :
    ∀ (l : List Ccy) (e : ℚ),
      l.foldl
        (fun e c =>
          if c = USD then e
          else
            match toUsd (bal c) c rates with
            | none => e
            | some u =>
                e + (if u < 0 then |u| * 2 else 0)
                  + (if u > TOL_USD_EQ then u - TOL_USD_EQ else 0))
        e
      = e + (l.map (ccyPenalty bal rates)).sum
  | [], e => by simp
  | c :: l, e => by
    rw [List.foldl_cons, badness_step, badness_foldl bal rates l]
    simp [add_assoc]

theorem t0BadnessUsdEq_eq_sum (bal : Ccy → ℚ) (rates : UsdRates) :
    t0BadnessUsdEq bal rates = (CCYS.map (ccyPenalty bal rates)).sum := by
  rw [t0BadnessUsdEq, badness_foldl, zero_add]

theorem sum_univ_eq_sum_CCYS (f : Ccy → ℚ) :
    (∑ c ∈ Finset.univ, f c) = (CCYS.map f).sum := by
  have huniv : (Finset.univ : Finset Ccy).val = (CCYS : Multiset Ccy) := rfl
  rw [Finset.sum, huniv, Multiset.map_coe, Multiset.sum_coe]

theorem usdEqPenalty_nonneg (rates : UsdRates) (bal : Ccy → ℚ) (c : Ccy) :
    0 ≤ usdEqPenalty rates bal c := by
  rw [usdEqPenalty]
  cases toUsd (bal c) c rates with
  | none => exact le_refl 0
  | some u =>
    have h1 : (0 : ℚ) ≤ if u < 0 then |u| * 2 else 0 := by
      split
      · positivity
      · exact le_refl 0
    have h2 : (0 : ℚ) ≤ if u > TOL_USD_EQ then u - TOL_USD_EQ else 0 := by
      split
      · next h => linarith
      · exact le_refl 0
    exact add_nonneg h1 h2

theorem ccyPenalty_eq_ite (bal : Ccy → ℚ) (rates : UsdRates) (c : Ccy) :
    ccyPenalty bal rates c = if c ≠ USD then usdEqPenalty rates bal c else 0 := by
  by_cases hc : c = USD
  · rw [ccyPenalty, if_pos hc, if_neg (by simpa using hc)]
  · rw [ccyPenalty, if_neg hc, if_pos hc, usdEqPenalty]
    cases toUsd (bal c) c rates with
    | none => rfl
    | some u => rfl

/-- C6 (amended). The badness score is non-negative and equals the sum
of the per-currency penalties over the non-USD currencies; when every
non-USD currency has a finite conversion it vanishes exactly on solved
positions.  (Without the finiteness hypothesis the equivalence fails:
see the counterexample.) -/
theorem t0BadnessUsdEq_spec (bal : Ccy → ℚ) (rates : UsdRates) :
    0 ≤ t0BadnessUsdEq bal rates
    ∧ t0BadnessUsdEq bal rates
        = ∑ c ∈ Finset.univ.filter (fun c => c ≠ USD), usdEqPenalty rates bal c
    ∧ ((∀ c, c ≠ USD → (toUsd (bal c) c rates).isSome = true) →
        (t0BadnessUsdEq bal rates = 0 ↔ solvedT0Long0to5mUsdEq bal rates = true)) := by
  have hsum : t0BadnessUsdEq bal rates
      = ∑ c ∈ Finset.univ.filter (fun c => c ≠ USD), usdEqPenalty rates bal c := by
    rw [Finset.sum_filter, t0BadnessUsdEq_eq_sum, ← sum_univ_eq_sum_CCYS]
    exact Finset.sum_congr rfl (fun c _ => ccyPenalty_eq_ite bal rates c)
  have hnn : 0 ≤ t0BadnessUsdEq bal rates := by
    rw [t0BadnessUsdEq_eq_sum]
    refine List.sum_nonneg ?_
    intro x hx
    obtain ⟨c, _, rfl⟩ := List.mem_map.1 hx
    exact ccyPenalty_nonneg bal rates c
  refine ⟨hnn, hsum, fun hfin => ?_⟩
  constructor
  · intro hzero
    rw [solved_eq_true_iff]
    intro c hc
    obtain ⟨u, hu⟩ := Option.isSome_iff_exists.1 (hfin c hc)
    have hpen : usdEqPenalty rates bal c = 0 := by
      have := (Finset.sum_eq_zero_iff_of_nonneg
        (fun i _ => usdEqPenalty_nonneg rates bal i)).1 (hsum ▸ hzero) c
      exact this (Finset.mem_filter.2 ⟨Finset.mem_univ c, hc⟩)
    rw [usdEqPenalty, hu] at hpen
    have h1 : (0 : ℚ) ≤ if u < 0 then |u| * 2 else 0 := by
      split
      · positivity
      · exact le_refl 0
    have h2 : (0 : ℚ) ≤ if u > TOL_USD_EQ then u - TOL_USD_EQ else 0 := by
      split
      · next h => linarith
      · exact le_refl 0
    have hz1 : (if u < 0 then |u| * 2 else 0) = 0 := by
      have : (if u < 0 then |u| * 2 else 0)
          + (if u > TOL_USD_EQ then u - TOL_USD_EQ else 0) = 0 := hpen
      linarith
    have hz2 : (if u > TOL_USD_EQ then u - TOL_USD_EQ else 0) = 0 := by
      have : (if u < 0 then |u| * 2 else 0)
          + (if u > TOL_USD_EQ then u - TOL_USD_EQ else 0) = 0 := hpen
      linarith
    refine ⟨u, hu, ?_, ?_⟩
    · by_contra hneg
      push_neg at hneg
      rw [if_pos hneg, abs_of_neg hneg] at hz1
      linarith
    · by_contra hbig
      push_neg at hbig
      rw [if_pos hbig] at hz2
      linarith
  · intro hsolved
    rw [t0BadnessUsdEq_eq_sum]
    refine List.sum_eq_zero ?_
    intro x hx
    obtain ⟨c, _, rfl⟩ := List.mem_map.1 hx
    rw [ccyPenalty_eq_ite]
    by_cases hc : c = USD
    · rw [if_neg (by simpa using hc)]
    · rw [if_pos hc]
      obtain ⟨u, hu, h0, h5⟩ := (solved_eq_true_iff bal rates).1 hsolved c hc
      rw [usdEqPenalty, hu]
      show (if u < 0 then |u| * 2 else 0) + (if u > TOL_USD_EQ then u - TOL_USD_EQ else 0) = 0
      rw [if_neg (by linarith), if_neg (by rw [TOL_USD_EQ] at h5; rw [TOL_USD_EQ]; linarith)]
      rw [add_zero]

/-- C6 counterexample: with unloaded rates the badness score is zero
although the objective is not solved, so "zero iff solved" fails as
stated. -/
theorem t0BadnessUsdEq_zero_not_solved :
    t0BadnessUsdEq cexBalancesZero cexRatesEmpty = 0
      ∧ solvedT0Long0to5mUsdEq cexBalancesZero cexRatesEmpty = false := by
  with_unfolding_all decide

/-! ### The four posted cells of a swap -/

theorem applyAt_balances (s : Scenario) (c : Ccy) (off : ℤ) (x : ℚ) (c2 : Ccy) :
    (applyAt s c off x).balances c2
      = s.balances c2 + (if c2 = c ∧ off = 0 then x else 0) := by
  unfold applyAt
  by_cases hoff : off = 0
  · rw [if_pos hoff]
    by_cases hc : c2 = c
    · subst hc
      rw [if_pos ⟨rfl, hoff⟩]
      exact Function.update_same c2 (s.balances c2 + x) s.balances
    · rw [if_neg (fun h => hc h.1), add_zero]
      exact Function.update_noteq hc _ _
  · rw [if_neg hoff]
    have hind : (if c2 = c ∧ off = 0 then x else 0) = 0 := if_neg (fun h => hoff h.2)
    rw [hind, add_zero]
    split <;> rfl

theorem applyAt_flows_length (s : Scenario) (c : Ccy) (off : ℤ) (x : ℚ) (c2 : Ccy) :
    ((applyAt s c off x).flows c2).length = (s.flows c2).length := by
  unfold applyAt
  split
  · rfl
  · split
    · by_cases hc : c2 = c
      · subst hc
        show (Function.update s.flows c2 _ c2).length = _
        rw [Function.update_same, List.length_set]
      · show (Function.update s.flows c _ c2).length = _
        rw [Function.update_noteq hc]
    · rfl

theorem applyAt_flows_getD0 (s : Scenario) (c : Ccy) (off : ℤ) (x : ℚ) (c2 : Ccy) :
    ((applyAt s c off x).flows c2).getD 0 0 = (s.flows c2).getD 0 0 := by
  unfold applyAt
  split
  · rfl
  · split
    · next hin =>
      by_cases hc : c2 = c
      · subst hc
        show ((Function.update s.flows c2 _ c2)).getD 0 0 = _
        rw [Function.update_same]
        have hne : off.toNat ≠ 0 := by omega
        exact getD_set_of_ne hne _
      · show ((Function.update s.flows c _ c2)).getD 0 0 = _
        rw [Function.update_noteq hc]
    · rfl

theorem applyAt_flows_getD (s : Scenario) (c : Ccy) (off : ℤ) (x : ℚ) (c2 : Ccy)
    (hlen : (s.flows c2).length = 80) {d : ℕ} (hd1 : 1 ≤ d) (hd2 : d ≤ 79) :
    ((applyAt s c off x).flows c2).getD d 0
      = (s.flows c2).getD d 0 + (if c2 = c ∧ off = (d : ℤ) then x else 0) := by
  have hM : ((MAX_DAYS : ℕ) : ℤ) = 80 := rfl
  unfold applyAt
  by_cases hoff : off = 0
  · rw [if_pos hoff,
      if_neg (fun h => by rw [hoff] at h; omega), add_zero]
  · rw [if_neg hoff]
    split
    · next hin =>
      rw [hM] at hin
      by_cases hc : c2 = c
      · subst hc
        show ((Function.update s.flows c2 _ c2)).getD d 0 = _
        rw [Function.update_same]
        by_cases hod : off = (d : ℤ)
        · have htn : off.toNat = d := by omega
          have hdlen : d < (s.flows c2).length := by omega
          rw [htn, getD_set_of_lt hdlen _, if_pos ⟨rfl, hod⟩]
        · have htn : off.toNat ≠ d := by omega
          rw [getD_set_of_ne htn _, if_neg (fun h => hod h.2), add_zero]
      · rw [if_neg (fun h => hc h.1), add_zero]
        show ((Function.update s.flows c _ c2)).getD d 0 = _
        rw [Function.update_noteq hc]
    · next hin =>
      rw [hM] at hin
      rw [if_neg (fun h => hin (by rw [h.2]; omega)), add_zero]

theorem applyFxSwap_def (s : Scenario) (t : SwapTrade) :
    applyFxSwap s t
      = applyAt
          (applyAt
            (applyAt (applyAt s t.buyCcy t.nearOffset t.notionalBuy)
              t.sellCcy t.nearOffset (-((jsRound (t.notionalBuy * t.spot) : ℤ) : ℚ)))
            t.buyCcy t.farOffset (-t.notionalBuy))
          t.sellCcy t.farOffset ((jsRound (t.notionalBuy * t.fwd) : ℤ) : ℚ) := rfl

/-- C9. `applyFxSwap` changes exactly the four posted cells: pointwise,
every balance and every flow bucket moves by `legDelta` (zero everywhere
but the four posted cells, and zero for a leg whose offset is outside
`0 .. 79`), and bucket 0 is never touched. -/
theorem applyFxSwap_cells (s : Scenario) (t : SwapTrade)
    (hlen : ∀ c, (s.flows c).length = 80) :
    (∀ c, (applyFxSwap s t).balances c = s.balances c + legDelta t c 0)
    ∧ (∀ c, ((applyFxSwap s t).flows c).getD 0 0 = (s.flows c).getD 0 0)
    ∧ (∀ c (d : ℕ), 1 ≤ d → d ≤ 79 →
        ((applyFxSwap s t).flows c).getD d 0 = (s.flows c).getD d 0 + legDelta t c (d : ℤ)) := by
  refine ⟨?_, ?_, ?_⟩
  · intro c
    rw [applyFxSwap_def, applyAt_balances, applyAt_balances, applyAt_balances,
      applyAt_balances, legDelta]
    ring
  · intro c
    rw [applyFxSwap_def, applyAt_flows_getD0, applyAt_flows_getD0, applyAt_flows_getD0,
      applyAt_flows_getD0]
  · intro c d hd1 hd2
    have hl1 : ∀ c2, ((applyAt s t.buyCcy t.nearOffset t.notionalBuy).flows c2).length = 80 :=
      fun c2 => by rw [applyAt_flows_length]; exact hlen c2
    have hl2 : ∀ c2, (((applyAt (applyAt s t.buyCcy t.nearOffset t.notionalBuy)
        t.sellCcy t.nearOffset
        (-((jsRound (t.notionalBuy * t.spot) : ℤ) : ℚ))).flows c2)).length = 80 :=
      fun c2 => by rw [applyAt_flows_length]; exact hl1 c2
    have hl3 : ∀ c2, (((applyAt (applyAt (applyAt s t.buyCcy t.nearOffset t.notionalBuy)
        t.sellCcy t.nearOffset (-((jsRound (t.notionalBuy * t.spot) : ℤ) : ℚ)))
        t.buyCcy t.farOffset (-t.notionalBuy)).flows c2)).length = 80 :=
      fun c2 => by rw [applyAt_flows_length]; exact hl2 c2
    rw [applyFxSwap_def, applyAt_flows_getD _ _ _ _ _ (hl3 c) hd1 hd2,
      applyAt_flows_getD _ _ _ _ _ (hl2 c) hd1 hd2,
      applyAt_flows_getD _ _ _ _ _ (hl1 c) hd1 hd2,
      applyAt_flows_getD _ _ _ _ _ (hlen c) hd1 hd2, legDelta]
    ring

/-! ### Sizing clamp -/

theorem jsRound_bounds (q : ℚ) :
    q - 1 / 2 < ((jsRound q : ℤ) : ℚ) ∧ ((jsRound q : ℤ) : ℚ) ≤ q + 1 / 2 := by
  rw [jsRound_eq_floor]
  constructor
  · have h := Int.lt_floor_add_one (q + 1 / 2)
    push_cast at h
    linarith
  · exact Int.floor_le (q + 1 / 2)

theorem toUsd_eq (amount : ℚ) (c : Ccy) (rates : UsdRates) {k : ℚ}
    (hk : rates.usdPerCcy c = some k) : toUsd amount c rates = some (amount * k) := by
  rw [toUsd, hk]
  rfl

/-- C7 (amended). Under "ok" rates and a finite strictly positive
USD-equivalent, the clamp never rejects: it returns the same trade with
only the buy notional rescaled, whose USD-equivalent lies in the sizing
band widened by at most half a unit of the buy currency on either side
(the rounding of the notional to a whole unit can leave it short of the
exact band, as the counterexample shows). -/
theorem clampNotionalBuyToUsdEq_spec (t : SwapTrade) (rates : UsdRates)
    (hok : rates.status = RatesStatus.ok) {k : ℚ}
    (hk : rates.usdPerCcy t.buyCcy = some k) (hupos : 0 < t.notionalBuy * k) :
    ∃ t2, clampNotionalBuyToUsdEq t rates = some t2
      ∧ t2.buyCcy = t.buyCcy ∧ t2.sellCcy = t.sellCcy ∧ t2.nearOffset = t.nearOffset
      ∧ t2.farOffset = t.farOffset ∧ t2.spot = t.spot ∧ t2.fwd = t.fwd
      ∧ (MIN_SWAP_USD_EQ ≤ t.notionalBuy * k → t.notionalBuy * k ≤ MAX_SWAP_USD_EQ → t2 = t)
      ∧ (t.notionalBuy * k < MIN_SWAP_USD_EQ →
          t2.notionalBuy
            = ((jsRound (t.notionalBuy * (MIN_SWAP_USD_EQ / (t.notionalBuy * k))) : ℤ) : ℚ))
      ∧ (MAX_SWAP_USD_EQ < t.notionalBuy * k →
          t2.notionalBuy
            = ((jsRound (t.notionalBuy * (MAX_SWAP_USD_EQ / (t.notionalBuy * k))) : ℤ) : ℚ))
      ∧ MIN_SWAP_USD_EQ - |k| / 2 ≤ t2.notionalBuy * k
      ∧ t2.notionalBuy * k ≤ MAX_SWAP_USD_EQ + |k| / 2 := by
  have hu0 : t.notionalBuy * k ≠ 0 := ne_of_gt hupos
  have hMIN : MIN_SWAP_USD_EQ = 2000000 := rfl
  have hMAX : MAX_SWAP_USD_EQ = 100000000 := rfl
  have habsk : 0 ≤ |k| := abs_nonneg k
  have hstep : clampNotionalBuyToUsdEq t rates
      = (if t.notionalBuy * k ≤ 0 then none
         else if t.notionalBuy * k < MIN_SWAP_USD_EQ then
           some { t with notionalBuy :=
             ((jsRound (t.notionalBuy * (MIN_SWAP_USD_EQ / (t.notionalBuy * k))) : ℤ) : ℚ) }
         else if t.notionalBuy * k > MAX_SWAP_USD_EQ then
           some { t with notionalBuy :=
             ((jsRound (t.notionalBuy * (MAX_SWAP_USD_EQ / (t.notionalBuy * k))) : ℤ) : ℚ) }
         else some t) := by
    rw [clampNotionalBuyToUsdEq, if_neg (fun h => h hok), toUsd_eq _ _ _ hk]
  rw [if_neg (not_le.2 hupos)] at hstep
  -- the rounded rescale lands within half a buy-currency unit of the target
  have hscale : ∀ target : ℚ, 0 < target →
      |((jsRound (t.notionalBuy * (target / (t.notionalBuy * k))) : ℤ) : ℚ) * k - target|
        ≤ |k| / 2 := by
    intro target htpos
    set y := t.notionalBuy * (target / (t.notionalBuy * k)) with hy
    have hyk : y * k = target := by
      rw [hy]
      field_simp
      ring
    obtain ⟨hb1, hb2⟩ := jsRound_bounds y
    have habs : |((jsRound y : ℤ) : ℚ) - y| ≤ 1 / 2 := abs_le.2 ⟨by linarith, by linarith⟩
    have hfac : ((jsRound y : ℤ) : ℚ) * k - target = (((jsRound y : ℤ) : ℚ) - y) * k := by
      rw [sub_mul, hyk]
    rw [hfac, abs_mul]
    calc |((jsRound y : ℤ) : ℚ) - y| * |k| ≤ (1 / 2) * |k| :=
      mul_le_mul_of_nonneg_right habs habsk
    _ = |k| / 2 := by ring
  by_cases hlo : t.notionalBuy * k < MIN_SWAP_USD_EQ
  · rw [if_pos hlo] at hstep
    refine ⟨_, hstep, rfl, rfl, rfl, rfl, rfl, rfl,
      fun hge _ => absurd hlo (not_lt.2 hge), fun _ => rfl,
      fun hgt => absurd hlo (by rw [hMIN, hMAX] at *; intro h; linarith), ?_, ?_⟩
    · have := abs_le.1 (hscale MIN_SWAP_USD_EQ (by rw [hMIN]; norm_num))
      show MIN_SWAP_USD_EQ - |k| / 2 ≤ _ * k
      linarith [this.1]
    · have := abs_le.1 (hscale MIN_SWAP_USD_EQ (by rw [hMIN]; norm_num))
      show _ * k ≤ MAX_SWAP_USD_EQ + |k| / 2
      rw [hMIN, hMAX] at *
      linarith [this.2]
  · rw [if_neg hlo] at hstep
    by_cases hhi : t.notionalBuy * k > MAX_SWAP_USD_EQ
    · rw [if_pos hhi] at hstep
      refine ⟨_, hstep, rfl, rfl, rfl, rfl, rfl, rfl,
        fun _ hle => absurd hhi (not_lt.2 hle),
        fun hlt => absurd hlt hlo, fun _ => rfl, ?_, ?_⟩
      · have := abs_le.1 (hscale MAX_SWAP_USD_EQ (by rw [hMAX]; norm_num))
        show MIN_SWAP_USD_EQ - |k| / 2 ≤ _ * k
        rw [hMIN, hMAX] at *
        linarith [this.1]
      · have := abs_le.1 (hscale MAX_SWAP_USD_EQ (by rw [hMAX]; norm_num))
        show _ * k ≤ MAX_SWAP_USD_EQ + |k| / 2
        linarith [this.2]
    · rw [if_neg hhi] at hstep
      refine ⟨t, hstep, rfl, rfl, rfl, rfl, rfl, rfl, fun _ _ => rfl,
        fun hlt => absurd hlt hlo, fun hgt => absurd hgt hhi, ?_, ?_⟩
      · have := not_lt.1 hlo
        linarith
      · have := not_lt.1 hhi
        linarith

/-- The low-branch evaluation of the clamp, shared by the C7 proofs. -/
theorem clampNotionalBuyToUsdEq_eval_low (t : SwapTrade) (rates : UsdRates)
    (hok : rates.status = RatesStatus.ok) {k : ℚ} (hk : rates.usdPerCcy t.buyCcy = some k)
    (hpos : 0 < t.notionalBuy * k) (hlo : t.notionalBuy * k < MIN_SWAP_USD_EQ) :
    clampNotionalBuyToUsdEq t rates
      = some { t with notionalBuy :=
          ((jsRound (t.notionalBuy * (MIN_SWAP_USD_EQ / (t.notionalBuy * k))) : ℤ) : ℚ) } := by
  have hstep : clampNotionalBuyToUsdEq t rates
      = (if t.notionalBuy * k ≤ 0 then none
         else if t.notionalBuy * k < MIN_SWAP_USD_EQ then
           some { t with notionalBuy :=
             ((jsRound (t.notionalBuy * (MIN_SWAP_USD_EQ / (t.notionalBuy * k))) : ℤ) : ℚ) }
         else if t.notionalBuy * k > MAX_SWAP_USD_EQ then
           some { t with notionalBuy :=
             ((jsRound (t.notionalBuy * (MAX_SWAP_USD_EQ / (t.notionalBuy * k))) : ℤ) : ℚ) }
         else some t) := by
    rw [clampNotionalBuyToUsdEq, if_neg (fun h => h hok), toUsd_eq _ _ _ hk]
  rw [hstep, if_neg (not_le.2 hpos), if_pos hlo]

/-- C7 counterexample: the clamp returns the trade (never rejects), but
the returned USD-equivalent is 1.5m, strictly below the 2m floor of the
claimed band — the one-unit rounding cannot reach it. -/
theorem clampNotionalBuyToUsdEq_band_cex :
    clampNotionalBuyToUsdEq cexTradeSmall cexRatesBigEur = some cexTradeSmall
      ∧ toUsd cexTradeSmall.notionalBuy cexTradeSmall.buyCcy cexRatesBigEur = some 1500000
      ∧ ¬ (MIN_SWAP_USD_EQ ≤ (1500000 : ℚ)) := by
  have hk : cexRatesBigEur.usdPerCcy cexTradeSmall.buyCcy = some 1500000 := rfl
  have hpos : (0 : ℚ) < cexTradeSmall.notionalBuy * 1500000 := by
    show (0 : ℚ) < 1 * 1500000
    norm_num
  have hlo : cexTradeSmall.notionalBuy * (1500000 : ℚ) < MIN_SWAP_USD_EQ := by
    show (1 : ℚ) * 1500000 < 2000000
    norm_num
  have h1 := clampNotionalBuyToUsdEq_eval_low cexTradeSmall cexRatesBigEur rfl hk hpos hlo
  have hjr : jsRound (cexTradeSmall.notionalBuy
      * (MIN_SWAP_USD_EQ / (cexTradeSmall.notionalBuy * 1500000))) = 1 := by
    show jsRound ((1 : ℚ) * (2000000 / ((1 : ℚ) * 1500000))) = 1
    rw [jsRound_eq_floor, Int.floor_eq_iff]
    norm_num
  refine ⟨by rw [h1, hjr]; rfl, ?_, ?_⟩
  · show toUsd 1 EUR cexRatesBigEur = some 1500000
    rw [toUsd_eq _ _ _ (rfl : cexRatesBigEur.usdPerCcy EUR = some 1500000), one_mul]
  · rw [MIN_SWAP_USD_EQ]
    norm_num

/-! ### Forward points and the round-trip cost -/

theorem forwardFromSpot_points (spot : ℚ) (b s : Ccy) (days : ℚ) :
    forwardFromSpot spot b s days
      = spot + (if thePoints spot b s days = 0
                then spot * (FWD_POINTS_SPREAD_BP / 10000)
                else thePoints spot b s days
                  + qsign (thePoints spot b s days) * (spot * (FWD_POINTS_SPREAD_BP / 10000))) :=
  rfl

theorem spread_frac : FWD_POINTS_SPREAD_BP / 10000 = (3 : ℚ) / 20000 := by
  rw [FWD_POINTS_SPREAD_BP]
  norm_num

theorem IR_bounds (c : Ccy) : 0 ≤ IR c ∧ IR c ≤ 11 / 100 := by
  cases c <;> constructor <;> norm_num [IR]

theorem clampQ_days_bounds (days : ℚ) :
    0 ≤ clampQ days 0 3650 / 360 ∧ clampQ days 0 3650 / 360 ≤ 3650 / 360 := by
  rw [clampQ]
  constructor
  · have h0 : (0 : ℚ) ≤ max 0 (min 3650 days) := le_max_left 0 _
    positivity
  · have hle : max 0 (min 3650 days) ≤ 3650 :=
      max_le (by norm_num) (min_le_left _ _)
    have h360 : (0 : ℚ) < 360 := by norm_num
    exact (div_le_div_right h360).2 hle

/-- The widened forward differs from spot by at least the spread and, in
the downward case, stays strictly positive. -/
theorem forwardFromSpot_props (spot : ℚ) (hspot : 0 < spot) (b s : Ccy) (days : ℚ) :
    0 < forwardFromSpot spot b s days
    ∧ (spot * (3 / 20000) ≤ forwardFromSpot spot b s days - spot
       ∨ forwardFromSpot spot b s days - spot ≤ -(spot * (3 / 20000))) := by
  obtain ⟨hT0, hTle⟩ := clampQ_days_bounds days
  set T := clampQ days 0 3650 / 360 with hT
  obtain ⟨hrs0, _⟩ := IR_bounds s
  obtain ⟨hrb0, hrb1⟩ := IR_bounds b
  have hrsT : 0 ≤ IR s * T := mul_nonneg hrs0 hT0
  have hrbT0 : 0 ≤ IR b * T := mul_nonneg hrb0 hT0
  have hrbT1 : IR b * T ≤ (11 / 100) * (3650 / 360) :=
    mul_le_mul hrb1 hTle hT0 (by norm_num)
  have hden : (0 : ℚ) < 1 + IR b * T := by linarith
  have htheo : spot * (3 / 20000) < spot * (1 + IR s * T) / (1 + IR b * T) := by
    rw [lt_div_iff hden]
    have h1 : spot * (3 / 20000) * (1 + IR b * T) ≤ spot * ((3 / 20000) * (1 + (11 / 100) * (3650 / 360))) := by
      have := mul_le_mul_of_nonneg_left hrbT1 (by norm_num : (0 : ℚ) ≤ 3 / 20000)
      nlinarith
    have h2 : spot * ((3 / 20000) * (1 + (11 / 100) * (3650 / 360))) < spot * 1 := by
      apply mul_lt_mul_of_pos_left _ hspot
      norm_num
    have h3 : spot * 1 ≤ spot * (1 + IR s * T) := by
      apply mul_le_mul_of_nonneg_left _ (le_of_lt hspot)
      linarith
    linarith
  rw [forwardFromSpot_points, spread_frac]
  rcases lt_trichotomy (thePoints spot b s days) 0 with hP | hP | hP
  · rw [if_neg (ne_of_lt hP), qsign, if_neg (by linarith), if_pos hP]
    constructor
    · have : thePoints spot b s days
          = spot * (1 + IR s * T) / (1 + IR b * T) - spot := rfl
      rw [this]
      ring_nf
      ring_nf at htheo
      linarith
    · right
      nlinarith
  · rw [if_pos hP]
    constructor
    · nlinarith
    · left
      linarith
  · rw [if_neg (ne_of_gt hP), qsign, if_pos hP]
    constructor
    · nlinarith
    · left
      nlinarith

/-- C8 (amended).  With rates consistent with the quoted spot
(`usdPerBuy = spot * usdPerSell`), a forward produced by
`forwardFromSpot`, and a near-leg large enough that the spread dominates
the one-unit rounding of the reversed notional
(`notionalBuy * spot > 10000/3`), the forward always differs from spot
and the round trip `t` then `invertTrade t` has strictly positive
combined USD cost.  (For small notionals the rounding can flip the sign:
see the counterexample.) -/
theorem swap_roundTrip_cost_pos (t : SwapTrade) (rates : UsdRates) (days : ℚ)
    {ks kb : ℚ}
    (hks : rates.usdPerCcy t.sellCcy = some ks) (hkb : rates.usdPerCcy t.buyCcy = some kb)
    (hkspos : 0 < ks) (hspot : 0 < t.spot) (hcons : kb = t.spot * ks)
    (hfwd : t.fwd = forwardFromSpot t.spot t.buyCcy t.sellCcy days)
    (hnb : 0 < t.notionalBuy) (hsize : 10000 / 3 < t.notionalBuy * t.spot) :
    t.fwd ≠ t.spot
    ∧ ∃ c1 c2, swapUsdCost t rates = some c1
        ∧ swapUsdCost (invertTrade t) rates = some c2
        ∧ 0 < c1 + c2 := by
  obtain ⟨hfpos, hcase⟩ := forwardFromSpot_props t.spot hspot t.buyCcy t.sellCcy days
  rw [← hfwd] at hfpos hcase
  have hspread : (0 : ℚ) < t.spot * (3 / 20000) := by positivity
  have hne : t.fwd ≠ t.spot := by
    rcases hcase with h | h
    · intro heq
      rw [heq] at h
      simp at h
      linarith
    · intro heq
      rw [heq] at h
      simp at h
      linarith
  have hc1 : swapUsdCost t rates = some (t.notionalBuy * (t.fwd - t.spot) * ks) :=
    toUsd_eq _ _ _ hks
  have hc2 : swapUsdCost (invertTrade t) rates
      = some (((jsRound (t.notionalBuy * t.spot) : ℤ) : ℚ)
          * (1 / t.fwd - 1 / t.spot) * kb) := toUsd_eq _ _ _ hkb
  refine ⟨hne, _, _, hc1, hc2, ?_⟩
  set R := ((jsRound (t.notionalBuy * t.spot) : ℤ) : ℚ) with hR
  obtain ⟨hR1, hR2⟩ := jsRound_bounds (t.notionalBuy * t.spot)
  rw [← hR] at hR1 hR2
  have hfne : t.fwd ≠ 0 := ne_of_gt hfpos
  have hsne : t.spot ≠ 0 := ne_of_gt hspot
  have hfactor : t.notionalBuy * (t.fwd - t.spot) * ks + R * (1 / t.fwd - 1 / t.spot) * kb
      = ks * (t.fwd - t.spot) * (t.notionalBuy * t.fwd - R) / t.fwd := by
    rw [hcons]
    field_simp
    ring
  rw [hfactor]
  have hhalf : (1 : ℚ) / 2 < (3 / 20000) * (t.notionalBuy * t.spot) := by
    have := mul_lt_mul_of_pos_left hsize (by norm_num : (0 : ℚ) < 3 / 20000)
    linarith [this]
  rcases hcase with h | h
  · -- forward above spot: both factors positive
    have hgap : t.notionalBuy * (t.fwd - t.spot) ≥ t.notionalBuy * (t.spot * (3 / 20000)) :=
      mul_le_mul_of_nonneg_left h (le_of_lt hnb)
    have hNFR : 0 < t.notionalBuy * t.fwd - R := by nlinarith
    have hFS : 0 < t.fwd - t.spot := by linarith
    positivity
  · -- forward below spot: both factors negative
    have hgap : t.notionalBuy * (t.fwd - t.spot) ≤ t.notionalBuy * (-(t.spot * (3 / 20000))) :=
      mul_le_mul_of_nonneg_left h (le_of_lt hnb)
    have hNFR : t.notionalBuy * t.fwd - R < 0 := by nlinarith
    have hFS : t.fwd - t.spot < 0 := by linarith
    have hprod : 0 < (t.fwd - t.spot) * (t.notionalBuy * t.fwd - R) :=
      mul_pos_of_neg_of_neg hFS hNFR
    have hnum : 0 < ks * (t.fwd - t.spot) * (t.notionalBuy * t.fwd - R) := by
      rw [mul_assoc]
      exact mul_pos hkspos hprod
    exact div_pos hnum hfpos

theorem cexRT_fwd_val : forwardFromSpot (1 / 2 : ℚ) JPY USD 2 = 1 / 2 + (9 / 72002 + 3 / 40000) := by
  have hclamp : clampQ 2 0 3650 = 2 := by
    rw [clampQ]
    norm_num [min_def, max_def]
  have hP : thePoints (1 / 2) JPY USD 2 = 9 / 72002 := by
    rw [thePoints, hclamp]
    norm_num [IR]
  rw [forwardFromSpot_points, hP, spread_frac,
    if_neg (by norm_num), qsign, if_pos (by norm_num)]
  norm_num

/-- C8 counterexample: all of the claim's hypotheses hold (positive
notional, positive consistent spot, forward from `forwardFromSpot`,
finite positive USD rates for both currencies), yet the combined USD
cost of the trade and its inversion is strictly negative, because the
reversed notional `round(3 * 0.5) = 2` rounds up by a third of a unit —
more than the 1.5 bp spread collects. -/
theorem swap_roundTrip_cost_cex :
    (0 : ℚ) < cexTradeRT.notionalBuy
    ∧ (0 : ℚ) < cexTradeRT.spot
    ∧ cexTradeRT.fwd = forwardFromSpot cexTradeRT.spot cexTradeRT.buyCcy cexTradeRT.sellCcy 2
    ∧ cexRatesRT.usdPerCcy cexTradeRT.sellCcy = some 1
    ∧ cexRatesRT.usdPerCcy cexTradeRT.buyCcy = some (cexTradeRT.spot * 1)
    ∧ ∃ c1 c2, swapUsdCost cexTradeRT cexRatesRT = some c1
        ∧ swapUsdCost (invertTrade cexTradeRT) cexRatesRT = some c2
        ∧ c1 + c2 < 0 := by
  have hR : ((jsRound (cexTradeRT.notionalBuy * cexTradeRT.spot) : ℤ) : ℚ) = 2 := by
    show ((jsRound ((3 : ℚ) * (1 / 2)) : ℤ) : ℚ) = 2
    have : jsRound ((3 : ℚ) * (1 / 2)) = 2 := by
      rw [jsRound_eq_floor, Int.floor_eq_iff]
      norm_num
    rw [this]
    norm_num
  have hc1 : swapUsdCost cexTradeRT cexRatesRT
      = some (cexTradeRT.notionalBuy * (cexTradeRT.fwd - cexTradeRT.spot) * 1) :=
    toUsd_eq _ _ _ (rfl : cexRatesRT.usdPerCcy cexTradeRT.sellCcy = some 1)
  have hc2 : swapUsdCost (invertTrade cexTradeRT) cexRatesRT
      = some (((jsRound (cexTradeRT.notionalBuy * cexTradeRT.spot) : ℤ) : ℚ)
          * (1 / cexTradeRT.fwd - 1 / cexTradeRT.spot) * (1 / 2)) :=
    toUsd_eq _ _ _ (rfl : cexRatesRT.usdPerCcy (invertTrade cexTradeRT).sellCcy = some (1 / 2))
  refine ⟨by norm_num [cexTradeRT], by norm_num [cexTradeRT], rfl, rfl, ?_, _, _, hc1, hc2, ?_⟩
  · show (if (JPY : Ccy) = JPY then some ((1 : ℚ) / 2) else some 1) = some (1 / 2 * 1)
    norm_num
  · rw [hR]
    have hf : cexTradeRT.fwd = 1 / 2 + (9 / 72002 + 3 / 40000) := cexRT_fwd_val
    have hnb : cexTradeRT.notionalBuy = 3 := rfl
    have hsp : cexTradeRT.spot = 1 / 2 := rfl
    rw [hf, hnb, hsp]
    norm_num

/-! ### Suggestion generators

The generators draw randomness for far tenors, pair shuffles and
notional targets; each draw is an explicit oracle field.  The shuffled
pair list of `makeBadSwapDifferentPair` becomes an explicit
`pairOrder`, and the tile shuffle an explicit `shuf` function (a
permutation for any real execution). -/

/-- Any trade accepted by the pair-scanning loop has passed its internal
badness check: applying it strictly increases the badness score. -/
theorem makeBadGo_sound (s : Scenario) (rates : UsdRates) (avoid : Option (Ccy × Ccy))
    (farOff : ℤ) (tgt : Ccy × Ccy → ℚ) :
    ∀ (l : List (Ccy × Ccy)) (t : SwapTrade), makeBadGo s rates avoid farOff tgt l = some t →
      t0BadnessUsdEq s.balances rates < t0BadnessUsdEq (applyFxSwap s t).balances rates
  | [], t, h => by simp [makeBadGo] at h
  | (b, sl) :: rest, t, h => by
    rw [makeBadGo] at h
    split at h
    · exact makeBadGo_sound s rates avoid farOff tgt rest t h
    · split at h
      · exact makeBadGo_sound s rates avoid farOff tgt rest t h
      · split at h
        · exact makeBadGo_sound s rates avoid farOff tgt rest t h
        · split at h
          · exact makeBadGo_sound s rates avoid farOff tgt rest t h
          · split at h
            · next hgt =>
              cases h
              exact hgt
            · exact makeBadGo_sound s rates avoid farOff tgt rest t h

theorem guidedTileList_map_category (s : Scenario) (rates : UsdRates) (o : GuidedOracle)
    (focus : Ccy) (best : SwapTrade) :
    (guidedTileList s rates o focus best).map GuidedTile.category
      = [TileCat.Best, TileCat.Marginal, TileCat.Worse, TileCat.Worse] := rfl

/-- C3 (amended).  `buildGuidedFourTiles` returns either no tiles or
exactly four whose categories are one Best, one Marginal and two Worse
(in shuffled order); and every trade produced by the verified bad-swap
search strictly increases the badness score.  (The Best tile is *not*
guaranteed to strictly decrease badness, nor the reversal Worse tile to
strictly increase it: see the counterexample.) -/
theorem buildGuidedFourTiles_spec :
    (∀ (s : Scenario) (rates : UsdRates) (o : GuidedOracle),
        (∀ l, (o.shuf l).Perm l) →
        (buildGuidedFourTiles s rates o).length = 0
          ∨ ((buildGuidedFourTiles s rates o).map GuidedTile.category).Perm
              [TileCat.Best, TileCat.Marginal, TileCat.Worse, TileCat.Worse])
    ∧ ∀ (s : Scenario) (rates : UsdRates) (avoid : Option (Ccy × Ccy)) (bo : BadOracle)
        (t : SwapTrade), makeBadSwapDifferentPair s rates avoid bo = some t →
        t0BadnessUsdEq s.balances rates < t0BadnessUsdEq (applyFxSwap s t).balances rates := by
  constructor
  · intro s rates o hshuf
    rw [buildGuidedFourTiles]
    cases hX : (makeSwapVsUsdToTargetOneCcy s rates (guidedFocus s rates)
        (clampQ 2500000 0 TOL_USD_EQ) 2).orElse
        (fun _ => guidedFallback rates o.fallbackCcy) with
    | none => exact Or.inl rfl
    | some best =>
      refine Or.inr ?_
      show ((guidedTilesFor s rates o (guidedFocus s rates) best).map GuidedTile.category).Perm _
      rw [guidedTilesFor]
      refine ((hshuf _).map GuidedTile.category).trans ?_
      rw [guidedTileList_map_category]
  · intro s rates avoid bo t h
    exact makeBadGo_sound s rates avoid bo.farOff bo.target bo.pairOrder t h

/-! ### C3 counterexample -/

/-- The mid-branch evaluation of the clamp: a USD-equivalent already in
band passes through unchanged. -/
theorem clampNotionalBuyToUsdEq_eval_mid (t : SwapTrade) (rates : UsdRates)
    (hok : rates.status = RatesStatus.ok) {k : ℚ} (hk : rates.usdPerCcy t.buyCcy = some k)
    (hpos : 0 < t.notionalBuy * k) (h1 : ¬ t.notionalBuy * k < MIN_SWAP_USD_EQ)
    (h2 : ¬ t.notionalBuy * k > MAX_SWAP_USD_EQ) :
    clampNotionalBuyToUsdEq t rates = some t := by
  have hstep : clampNotionalBuyToUsdEq t rates
      = (if t.notionalBuy * k ≤ 0 then none
         else if t.notionalBuy * k < MIN_SWAP_USD_EQ then
           some { t with notionalBuy :=
             ((jsRound (t.notionalBuy * (MIN_SWAP_USD_EQ / (t.notionalBuy * k))) : ℤ) : ℚ) }
         else if t.notionalBuy * k > MAX_SWAP_USD_EQ then
           some { t with notionalBuy :=
             ((jsRound (t.notionalBuy * (MAX_SWAP_USD_EQ / (t.notionalBuy * k))) : ℤ) : ℚ) }
         else some t) := by
    rw [clampNotionalBuyToUsdEq, if_neg (fun h => h hok), toUsd_eq _ _ _ hk]
  rw [hstep, if_neg (not_le.2 hpos), if_neg h1, if_neg h2]

/-- `jsRound` evaluation from floor bounds. -/
theorem jsRound_eq_of (q : ℚ) (z : ℤ) (h1 : (z : ℚ) ≤ q + 1 / 2) (h2 : q + 1 / 2 < (z : ℚ) + 1) :
    jsRound q = z := by
  rw [jsRound_eq_floor]
  exact Int.floor_eq_iff.2 ⟨h1, by exact_mod_cast h2⟩

theorem cexG_step_first : pickWorstStep cexScnG.balances cexRatesG none AUD
    = some (AUD, 0, 2400000) := by
  have hu : toUsd (cexScnG.balances AUD) AUD cexRatesG = some 2400000 := by
    rw [toUsd_eq _ _ _ (rfl : cexRatesG.usdPerCcy AUD = some 1)]
    norm_num [cexScnG]
  rw [pickWorstStep, if_neg (by decide : ¬ (AUD = USD)), hu]
  show some (AUD,
    (if (2400000 : ℚ) < 0 then |(2400000 : ℚ)| * 2
     else if (2400000 : ℚ) > TOL_USD_EQ then (2400000 : ℚ) - TOL_USD_EQ else 0),
    2400000) = some (AUD, 0, 2400000)
  rw [if_neg (by norm_num), if_neg (by rw [TOL_USD_EQ]; norm_num)]

theorem cexG_step_keep (c : Ccy) (hc : ¬ c = USD) (hca : ¬ c = AUD) :
    pickWorstStep cexScnG.balances cexRatesG (some (AUD, 0, 2400000)) c
      = some (AUD, 0, 2400000) := by
  have hu : toUsd (cexScnG.balances c) c cexRatesG = some 0 := by
    rw [toUsd_eq _ _ _ (rfl : cexRatesG.usdPerCcy c = some 1)]
    rw [show cexScnG.balances c = 0 by rw [cexScnG]; exact if_neg hca]
    norm_num
  rw [pickWorstStep, if_neg hc, hu]
  show (if (if (0 : ℚ) < 0 then |(0 : ℚ)| * 2
      else if (0 : ℚ) > TOL_USD_EQ then (0 : ℚ) - TOL_USD_EQ else 0) > (0 : ℚ)
    then some (c, _, (0 : ℚ)) else some (AUD, 0, 2400000)) = some (AUD, 0, 2400000)
  have hbad : (if (0 : ℚ) < 0 then |(0 : ℚ)| * 2
      else if (0 : ℚ) > TOL_USD_EQ then (0 : ℚ) - TOL_USD_EQ else 0) = 0 := by
    rw [if_neg (by norm_num : ¬ ((0 : ℚ) < 0)),
      if_neg (show ¬ ((0 : ℚ) > TOL_USD_EQ) by rw [TOL_USD_EQ]; norm_num)]
  rw [hbad, if_neg (by norm_num : ¬ ((0 : ℚ) > (0 : ℚ)))]

theorem cexG_focus : guidedFocus cexScnG cexRatesG = AUD := by
  have hworst : pickWorstNonUsdByUsdEq cexScnG.balances cexRatesG
      = some (AUD, 0, 2400000) := by
    rw [pickWorstNonUsdByUsdEq,
      show CCYS = [AUD, CAD, CHF, EUR, GBP, JPY, MXN, NZD, PHP, USD] from rfl]
    rw [List.foldl_cons, cexG_step_first]
    rw [List.foldl_cons, cexG_step_keep CAD (by decide) (by decide)]
    rw [List.foldl_cons, cexG_step_keep CHF (by decide) (by decide)]
    rw [List.foldl_cons, cexG_step_keep EUR (by decide) (by decide)]
    rw [List.foldl_cons, cexG_step_keep GBP (by decide) (by decide)]
    rw [List.foldl_cons, cexG_step_keep JPY (by decide) (by decide)]
    rw [List.foldl_cons, cexG_step_keep MXN (by decide) (by decide)]
    rw [List.foldl_cons, cexG_step_keep NZD (by decide) (by decide)]
    rw [List.foldl_cons, cexG_step_keep PHP (by decide) (by decide)]
    rw [List.foldl_cons, show pickWorstStep cexScnG.balances cexRatesG
        (some (AUD, 0, 2400000)) USD = some (AUD, 0, 2400000) from rfl]
    rw [List.foldl_nil]
  rw [guidedFocus, hworst]
  rfl

theorem makeSwapVsUsd_eval_buy (s : Scenario) (rates : UsdRates) (ccy : Ccy)
    (target : ℚ) (farOffset : ℤ) (hc : ¬ ccy = USD) {curUsd usdPer sp : ℚ}
    (hcur : toUsd (s.balances ccy) ccy rates = some curUsd)
    (hdelta : 0 ≤ target - curUsd)
    (husd : rates.usdPerCcy ccy = some usdPer) (hup : ¬ usdPer ≤ 0)
    (hsp : spotFromUsdRates ccy USD rates = some sp) (hsp0 : ¬ sp = 0) :
    makeSwapVsUsdToTargetOneCcy s rates ccy target farOffset
      = clampNotionalBuyToUsdEq
          { buyCcy := ccy
            sellCcy := USD
            notionalBuy := ((jsRound ((target - curUsd) / usdPer) : ℤ) : ℚ)
            nearOffset := 0
            farOffset := farOffset
            spot := sp
            fwd := forwardFromSpot sp ccy USD ((max 1 (farOffset - 0) : ℤ) : ℚ) } rates := by
  simp only [makeSwapVsUsdToTargetOneCcy, hcur, husd, hsp, if_neg hc, if_pos hdelta,
    if_neg hup, if_neg hsp0]

theorem cexG_best : makeSwapVsUsdToTargetOneCcy cexScnG cexRatesG AUD
    (clampQ 2500000 0 TOL_USD_EQ) 2 = some cexBestTG := by
  have hclamp : clampQ 2500000 0 TOL_USD_EQ = 2500000 := by
    rw [clampQ, TOL_USD_EQ]
    norm_num [min_def, max_def]
  have hcur : toUsd (cexScnG.balances AUD) AUD cexRatesG = some 2400000 := by
    rw [toUsd_eq _ _ _ (rfl : cexRatesG.usdPerCcy AUD = some 1)]
    norm_num [cexScnG]
  have hsp : spotFromUsdRates AUD USD cexRatesG = some 1 := by
    rw [spotFromUsdRates, if_neg (by decide : ¬ (AUD = USD))]
    show some ((1 : ℚ) / 1) = some 1
    norm_num
  rw [makeSwapVsUsd_eval_buy cexScnG cexRatesG AUD _ 2 (by decide) hcur
    (by rw [hclamp]; norm_num) (rfl : cexRatesG.usdPerCcy AUD = some 1)
    (by norm_num) hsp (by norm_num)]
  have hnb : ((jsRound ((clampQ 2500000 0 TOL_USD_EQ - 2400000) / 1) : ℤ) : ℚ) = 100000 := by
    rw [hclamp, show ((2500000 : ℚ) - 2400000) / 1 = 100000 by norm_num,
      jsRound_eq_of 100000 100000 (by norm_num) (by norm_num)]
    norm_num
  rw [hnb]
  rw [clampNotionalBuyToUsdEq_eval_low _ _ rfl
    (rfl : cexRatesG.usdPerCcy AUD = some 1) (by norm_num) (by rw [MIN_SWAP_USD_EQ]; norm_num)]
  have hnb2 : ((jsRound ((100000 : ℚ) * (MIN_SWAP_USD_EQ / ((100000 : ℚ) * 1))) : ℤ) : ℚ)
      = 2000000 := by
    rw [show (100000 : ℚ) * (MIN_SWAP_USD_EQ / ((100000 : ℚ) * 1)) = 2000000 by
      rw [MIN_SWAP_USD_EQ]; norm_num,
      jsRound_eq_of 2000000 2000000 (by norm_num) (by norm_num)]
    norm_num
  rw [hnb2]
  rfl

theorem cexG_tiles : buildGuidedFourTiles cexScnG cexRatesG cexOracleG
    = guidedTileList cexScnG cexRatesG cexOracleG AUD cexBestTG := by
  rw [buildGuidedFourTiles, cexG_focus, cexG_best]
  rfl

/-- C3 counterexample: the four tiles come back in order Best, Marginal,
Worse, Worse (identity shuffle), yet the Best tile leaves the badness
unchanged at zero (the position is already solved, and badness cannot
decrease below zero), and the reversal Worse tile also leaves it at
zero, so neither the "Best strictly decreases" nor the "either Worse
strictly increases" part of the claim holds at this input. -/
theorem buildGuidedFourTiles_cex :
    ((buildGuidedFourTiles cexScnG cexRatesG cexOracleG).map GuidedTile.category)
        = [TileCat.Best, TileCat.Marginal, TileCat.Worse, TileCat.Worse]
    ∧ ¬ (t0BadnessUsdEq (applyFxSwap cexScnG (cexTileTrade 0)).balances cexRatesG
          < t0BadnessUsdEq cexScnG.balances cexRatesG)
    ∧ ¬ (t0BadnessUsdEq cexScnG.balances cexRatesG
          < t0BadnessUsdEq (applyFxSwap cexScnG (cexTileTrade 2)).balances cexRatesG) := by
  have h0 : cexTileTrade 0 = cexBestTG := by
    rw [cexTileTrade, cexG_tiles]
    rfl
  have hw1base : guidedWorse1 cexRatesG cexBestTG
      = { cexBestTG with
          buyCcy := cexBestTG.sellCcy
          sellCcy := cexBestTG.buyCcy
          notionalBuy := cexBestTG.notionalBuy
          spot := 1 / cexBestTG.spot
          fwd := 1 / cexBestTG.fwd } := by
    rw [guidedWorse1]
    rw [clampNotionalBuyToUsdEq_eval_mid _ _ rfl
      (rfl : cexRatesG.usdPerCcy USD = some 1)
      (by show (0 : ℚ) < 2000000 * 1; norm_num)
      (by show ¬ ((2000000 : ℚ) * 1 < MIN_SWAP_USD_EQ); rw [MIN_SWAP_USD_EQ]; norm_num)
      (by show ¬ ((2000000 : ℚ) * 1 > MAX_SWAP_USD_EQ); rw [MAX_SWAP_USD_EQ]; norm_num)]
    rfl
  have h2 : cexTileTrade 2 = guidedWorse1 cexRatesG cexBestTG := by
    rw [cexTileTrade, cexG_tiles]
    rfl
  have hbad0 : t0BadnessUsdEq cexScnG.balances cexRatesG = 0 := by
    with_unfolding_all decide
  have hbadBest : t0BadnessUsdEq (applyFxSwap cexScnG cexBestTG).balances cexRatesG = 0 := by
    with_unfolding_all decide
  have hbadW1 : t0BadnessUsdEq
      (applyFxSwap cexScnG (guidedWorse1 cexRatesG cexBestTG)).balances cexRatesG = 0 := by
    rw [hw1base]
    with_unfolding_all decide
  refine ⟨?_, ?_, ?_⟩
  · rw [cexG_tiles, guidedTileList_map_category]
  · rw [h0, hbad0, hbadBest]
    norm_num
  · rw [h2, hbad0, hbadW1]
    norm_num

/-! ### C4: the basic plan builder -/

theorem simGoods_append (start : Scenario) (l1 l2 : List BasicSuggestion) :
    simGoods start (l1 ++ l2) = simGoods (simGoods start l1) l2 := by
  rw [simGoods, simGoods, simGoods, List.foldl_append]

theorem allBad_goodSound (start : Scenario) (rates : UsdRates) (plan : List BasicSuggestion)
    (hall : ∀ x ∈ plan, x.isGood = false) : GoodSound start rates plan := by
  intro pre g post heq hgood
  have hmem : g ∈ plan := heq ▸ List.mem_append.2 (Or.inr (List.mem_cons_self g post))
  rw [hall g hmem] at hgood
  exact absurd hgood (by simp)

theorem goodSound_snoc (start : Scenario) (rates : UsdRates) (plan : List BasicSuggestion)
    (g : BasicSuggestion) (h : GoodSound start rates plan)
    (hg : g.isGood = true →
      t0BadnessUsdEq (applyFxSwap (simGoods start plan) g.trade).balances rates
        < t0BadnessUsdEq (simGoods start plan).balances rates) :
    GoodSound start rates (plan ++ [g]) := by
  intro pre x post heq hx
  rcases post.eq_nil_or_concat with rfl | ⟨post2, y, rfl⟩
  · obtain ⟨h1, h2⟩ := List.append_inj' heq rfl
    injection h2 with hgx _
    subst h1
    subst hgx
    exact hg hx
  · rw [List.concat_eq_append,
      show pre ++ x :: (post2 ++ [y]) = (pre ++ x :: post2) ++ [y] by simp] at heq
    obtain ⟨h1, _⟩ := List.append_inj' heq rfl
    exact h pre x post2 h1 hx

theorem goodSound_take (start : Scenario) (rates : UsdRates) (plan : List BasicSuggestion)
    (n : ℕ) (h : GoodSound start rates plan) : GoodSound start rates (plan.take n) := by
  intro pre x post heq hx
  have hfull : plan = pre ++ x :: (post ++ plan.drop n) := by
    conv_lhs => rw [← List.take_append_drop n plan]
    rw [heq]
    simp
  exact h pre x (post ++ plan.drop n) hfull hx

theorem simGoods_allBad (start : Scenario) :
    ∀ plan : List BasicSuggestion, (∀ x ∈ plan, x.isGood = false) →
      simGoods start plan = start
  | [], _ => rfl
  | x :: rest, hall => by
    have hx : x.isGood = false := hall x (List.mem_cons_self x rest)
    have h1 : simGoods start (x :: rest) = simGoods start rest := by
      show simGoods (if x.isGood then applyFxSwap start x.trade else start) rest
        = simGoods start rest
      rw [hx]
      rfl
    rw [h1]
    exact simGoods_allBad start rest (fun y hy => hall y (List.mem_cons_of_mem x hy))

theorem badFilter_append_bad (plan : List BasicSuggestion) (x : BasicSuggestion)
    (hx : x.isGood = false) :
    ((plan ++ [x]).filter (fun y => !y.isGood)).length
      = (plan.filter (fun y => !y.isGood)).length + 1 := by
  rw [List.filter_append]
  simp [List.filter, hx]

theorem badFilter_append_good (plan : List BasicSuggestion) (x : BasicSuggestion)
    (hx : x.isGood = true) :
    ((plan ++ [x]).filter (fun y => !y.isGood)).length
      = (plan.filter (fun y => !y.isGood)).length := by
  rw [List.filter_append]
  simp [List.filter, hx]

theorem basicPhase1_allBad (s : Scenario) (rates : UsdRates) (orc : ℕ → BadOracle) :
    ∀ (fuel idx : ℕ) (lastBad : Option (Ccy × Ccy)) (plan : List BasicSuggestion) (bc : ℕ),
      (∀ x ∈ plan, x.isGood = false) →
      ∀ x ∈ (basicPhase1 s rates orc fuel idx lastBad plan bc).1, x.isGood = false
  | 0, _, _, _, _, hall => hall
  | fuel + 1, idx, lastBad, plan, bc, hall => by
    cases heq : makeBadSwapDifferentPair s rates lastBad (orc idx) with
    | none =>
      rw [basicPhase1, heq]
      exact hall
    | some bad =>
      rw [basicPhase1, heq]
      exact basicPhase1_allBad s rates orc fuel (idx + 1) _ _ _
        (fun x hx => by
          rcases List.mem_append.1 hx with h | h
          · exact hall x h
          · rw [List.mem_singleton.1 h]
            rfl)

theorem basicPhase1_count (s : Scenario) (rates : UsdRates) (orc : ℕ → BadOracle) :
    ∀ (fuel idx : ℕ) (lastBad : Option (Ccy × Ccy)) (plan : List BasicSuggestion) (bc : ℕ),
      (plan.filter (fun y => !y.isGood)).length = bc →
      ((basicPhase1 s rates orc fuel idx lastBad plan bc).1.filter
          (fun y => !y.isGood)).length
        = (basicPhase1 s rates orc fuel idx lastBad plan bc).2.2
      ∧ (basicPhase1 s rates orc fuel idx lastBad plan bc).2.2 ≤ bc + fuel
  | 0, _, _, _, bc, hbc => ⟨hbc, Nat.le_add_right bc 0⟩
  | fuel + 1, idx, lastBad, plan, bc, hbc => by
    cases heq : makeBadSwapDifferentPair s rates lastBad (orc idx) with
    | none =>
      rw [basicPhase1, heq]
      exact ⟨hbc, Nat.le_add_right bc (fuel + 1)⟩
    | some bad =>
      have hstep : basicPhase1 s rates orc (fuel + 1) idx lastBad plan bc
          = basicPhase1 s rates orc fuel (idx + 1) (some (bad.buyCcy, bad.sellCcy))
            (plan ++ [mkBasicSuggestion rates bad false]) (bc + 1) := by
        rw [basicPhase1, heq]
      rw [hstep]
      have hrec := basicPhase1_count s rates orc fuel (idx + 1)
        (some (bad.buyCcy, bad.sellCcy)) (plan ++ [mkBasicSuggestion rates bad false])
        (bc + 1) (by rw [badFilter_append_bad plan _ rfl, hbc])
      exact ⟨hrec.1, by omega⟩

theorem basicPhase2_invariant (start : Scenario) (rates : UsdRates) (fp : ℕ → ℤ) :
    ∀ (fuel : ℕ) (s : Scenario) (plan : List BasicSuggestion),
      GoodSound start rates plan → simGoods start plan = s →
      GoodSound start rates (basicPhase2 rates fp fuel s plan).2
        ∧ simGoods start (basicPhase2 rates fp fuel s plan).2
            = (basicPhase2 rates fp fuel s plan).1
        ∧ ((basicPhase2 rates fp fuel s plan).2.filter (fun y => !y.isGood)).length
            = (plan.filter (fun y => !y.isGood)).length
  | 0, s, plan, hg, hs => ⟨hg, hs, rfl⟩
  | fuel + 1, s, plan, hg, hs => by
    rw [basicPhase2]
    split
    · exact ⟨hg, hs, rfl⟩
    · split
      · exact ⟨hg, hs, rfl⟩
      · split
        · exact ⟨hg, hs, rfl⟩
        · split
          · exact ⟨hg, hs, rfl⟩
          · split
            · exact ⟨hg, hs, rfl⟩
            · next t ht =>
              split
              · next hdec =>
                have hg2 : GoodSound start rates
                    (plan ++ [mkBasicSuggestion rates t true]) :=
                  goodSound_snoc start rates plan _ hg
                    (fun _ => by rw [hs]; exact hdec)
                have hs2 : simGoods start (plan ++ [mkBasicSuggestion rates t true])
                    = applyFxSwap s t := by
                  rw [simGoods_append, hs]
                  rfl
                have hrec := basicPhase2_invariant start rates fp fuel (applyFxSwap s t)
                  (plan ++ [mkBasicSuggestion rates t true]) hg2 hs2
                refine ⟨hrec.1, hrec.2.1, ?_⟩
                rw [hrec.2.2, badFilter_append_good plan _ rfl]
              · exact basicPhase2_invariant start rates fp fuel s plan hg hs

theorem basicPhase3_invariant (start s : Scenario) (rates : UsdRates) (orc : ℕ → BadOracle) :
    ∀ (fuel idx : ℕ) (avoid : Option (Ccy × Ccy)) (plan : List BasicSuggestion) (bc : ℕ),
      GoodSound start rates plan →
      (plan.filter (fun y => !y.isGood)).length = bc → bc ≤ BASIC_REQUIRED_BAD →
      GoodSound start rates (basicPhase3 s rates orc fuel idx avoid plan bc)
        ∧ ((basicPhase3 s rates orc fuel idx avoid plan bc).filter
            (fun y => !y.isGood)).length ≤ BASIC_REQUIRED_BAD
  | 0, _, _, plan, bc, hg, hbc, hle => ⟨hg, le_of_eq_of_le hbc hle⟩
  | fuel + 1, idx, avoid, plan, bc, hg, hbc, hle => by
    rw [basicPhase3]
    split
    · next hguard =>
      cases heq : makeBadSwapDifferentPair s rates avoid (orc idx) with
      | none =>
        exact ⟨hg, le_of_eq_of_le hbc hle⟩
      | some bad =>
        refine basicPhase3_invariant start s rates orc fuel (idx + 1) _ _ _ ?_ ?_ ?_
        · exact goodSound_snoc start rates plan _ hg
            (fun hco => absurd hco (by simp [mkBasicSuggestion]))
        · rw [badFilter_append_bad plan _ rfl, hbc]
        · have := hguard.2.2
          rw [BASIC_REQUIRED_BAD] at this ⊢
          omega
    · exact ⟨hg, le_of_eq_of_le hbc hle⟩

/-- C4 (amended). The plan never exceeds the maximum length, contains at
most the required number of bad suggestions (the minimum length, the
minimum bad count and the solvability of the simulated good path are not
guaranteed: see the counterexample), and every suggestion marked good
strictly reduces the badness of the scenario obtained by simulating the
good path up to it. -/
theorem buildBasicPlanForDay_spec (start : Scenario) (rates : UsdRates) (o : PlanOracle) :
    (buildBasicPlanForDay start rates o).length ≤ BASIC_MAX_STEPS
    ∧ ((buildBasicPlanForDay start rates o).filter (fun x => !x.isGood)).length
        ≤ BASIC_REQUIRED_BAD
    ∧ ∀ pre g post, buildBasicPlanForDay start rates o = pre ++ g :: post →
        g.isGood = true →
        t0BadnessUsdEq (applyFxSwap (simGoods start pre) g.trade).balances rates
          < t0BadnessUsdEq (simGoods start pre).balances rates := by
  have hall1 : ∀ x ∈ (basicPhase1 (shallowCopyScenario start) rates o.bad1
      BASIC_REQUIRED_BAD 0 none [] 0).1, x.isGood = false :=
    basicPhase1_allBad _ rates o.bad1 BASIC_REQUIRED_BAD 0 none [] 0
      (fun x hx => absurd hx (List.not_mem_nil x))
  have hg1 : GoodSound start rates (basicPhase1 (shallowCopyScenario start) rates o.bad1
      BASIC_REQUIRED_BAD 0 none [] 0).1 := allBad_goodSound start rates _ hall1
  have hs1 : simGoods start (basicPhase1 (shallowCopyScenario start) rates o.bad1
      BASIC_REQUIRED_BAD 0 none [] 0).1 = shallowCopyScenario start :=
    simGoods_allBad start _ hall1
  have hcount1 := basicPhase1_count (shallowCopyScenario start) rates o.bad1
    BASIC_REQUIRED_BAD 0 none [] 0 rfl
  have hinv2 := basicPhase2_invariant start rates o.farPick 200 (shallowCopyScenario start)
    (basicPhase1 (shallowCopyScenario start) rates o.bad1 BASIC_REQUIRED_BAD 0 none [] 0).1
    hg1 hs1
  have hinv3 := basicPhase3_invariant start
    (basicPhase2 rates o.farPick 200 (shallowCopyScenario start)
      (basicPhase1 (shallowCopyScenario start) rates o.bad1
        BASIC_REQUIRED_BAD 0 none [] 0).1).1
    rates o.bad3 BASIC_MIN_STEPS 0
    (basicPhase1 (shallowCopyScenario start) rates o.bad1
      BASIC_REQUIRED_BAD 0 none [] 0).2.1
    (basicPhase2 rates o.farPick 200 (shallowCopyScenario start)
      (basicPhase1 (shallowCopyScenario start) rates o.bad1
        BASIC_REQUIRED_BAD 0 none [] 0).1).2
    (basicPhase1 (shallowCopyScenario start) rates o.bad1
      BASIC_REQUIRED_BAD 0 none [] 0).2.2
    hinv2.1 (by rw [hinv2.2.2, hcount1.1]) (by have := hcount1.2; omega)
  have hbuild : buildBasicPlanForDay start rates o
      = (basicPhase3
          (basicPhase2 rates o.farPick 200 (shallowCopyScenario start)
            (basicPhase1 (shallowCopyScenario start) rates o.bad1
              BASIC_REQUIRED_BAD 0 none [] 0).1).1
          rates o.bad3 BASIC_MIN_STEPS 0
          (basicPhase1 (shallowCopyScenario start) rates o.bad1
            BASIC_REQUIRED_BAD 0 none [] 0).2.1
          (basicPhase2 rates o.farPick 200 (shallowCopyScenario start)
            (basicPhase1 (shallowCopyScenario start) rates o.bad1
              BASIC_REQUIRED_BAD 0 none [] 0).1).2
          (basicPhase1 (shallowCopyScenario start) rates o.bad1
            BASIC_REQUIRED_BAD 0 none [] 0).2.2).take BASIC_MAX_STEPS := rfl
  refine ⟨?_, ?_, ?_⟩
  · rw [hbuild]
    exact List.length_take_le _ _
  · rw [hbuild]
    exact le_trans (List.Sublist.length_le ((List.take_sublist _ _).filter _)) hinv3.2
  · intro pre g post heq hgood
    rw [hbuild] at heq
    exact goodSound_take start rates _ BASIC_MAX_STEPS hinv3.1 pre g post heq hgood

/-! ### C4 counterexample -/

theorem toUsd_cexRates4_none (amt : ℚ) (c : Ccy) (hc : ¬ c = USD) :
    toUsd amt c cexRates4 = none := by
  rw [toUsd, show cexRates4.usdPerCcy c = none from if_neg hc]
  rfl

theorem badness_cexRates4 (bal : Ccy → ℚ) : t0BadnessUsdEq bal cexRates4 = 0 := by
  rw [t0BadnessUsdEq_eq_sum]
  apply List.sum_eq_zero
  intro x hx
  obtain ⟨c, hc, rfl⟩ := List.mem_map.1 hx
  rw [ccyPenalty]
  by_cases h : c = USD
  · rw [if_pos h]
  · rw [if_neg h, toUsd_cexRates4_none _ _ h]

theorem makeBadGo_cexRates4 (s : Scenario) (avoid : Option (Ccy × Ccy)) (farOff : ℤ)
    (tgt : Ccy × Ccy → ℚ) :
    ∀ l : List (Ccy × Ccy), makeBadGo s cexRates4 avoid farOff tgt l = none
  | [] => rfl
  | (b, sl) :: rest => by
    rw [makeBadGo]
    split
    · exact makeBadGo_cexRates4 s avoid farOff tgt rest
    · split
      · exact makeBadGo_cexRates4 s avoid farOff tgt rest
      · split
        · exact makeBadGo_cexRates4 s avoid farOff tgt rest
        · split
          · exact makeBadGo_cexRates4 s avoid farOff tgt rest
          · next clamped heq =>
            have hlt : ¬ (t0BadnessUsdEq (applyFxSwap s clamped).balances cexRates4
                > t0BadnessUsdEq s.balances cexRates4) := by
              rw [badness_cexRates4, badness_cexRates4]
              exact lt_irrefl 0
            rw [if_neg hlt]
            exact makeBadGo_cexRates4 s avoid farOff tgt rest

theorem basicPhase1_cex4 : ∀ (fuel idx : ℕ) (lastBad : Option (Ccy × Ccy))
    (plan : List BasicSuggestion) (bc : ℕ),
    basicPhase1 cexScn4 cexRates4 cexO4.bad1 fuel idx lastBad plan bc = (plan, lastBad, bc)
  | 0, _, _, _, _ => rfl
  | fuel + 1, idx, lastBad, plan, bc => by
    rw [basicPhase1, show makeBadSwapDifferentPair cexScn4 cexRates4 lastBad (cexO4.bad1 idx)
      = none from makeBadGo_cexRates4 cexScn4 lastBad _ _ _]

theorem solved_cex4 : solvedT0Long0to5mUsdEq cexScn4.balances cexRates4 = false := by
  with_unfolding_all decide

theorem pickTopBad_cex4 (bal : Ccy → ℚ) : pickTopBad bal cexRates4 = none := by
  have h : ∀ c : Ccy, ¬ c = USD → toUsd (bal c) c cexRates4 = none :=
    fun c hc => toUsd_cexRates4_none (bal c) c hc
  rw [pickTopBad,
    show CCYS.filter (fun c => c ≠ USD) = [AUD, CAD, CHF, EUR, GBP, JPY, MXN, NZD, PHP]
      from rfl]
  simp only [List.foldl_cons, List.foldl_nil, h AUD (by decide), h CAD (by decide),
    h CHF (by decide), h EUR (by decide), h GBP (by decide), h JPY (by decide),
    h MXN (by decide), h NZD (by decide), h PHP (by decide)]

theorem basicPhase2_cex4 : ∀ (fuel : ℕ) (plan : List BasicSuggestion),
    ¬ BASIC_MAX_STEPS ≤ plan.length →
    basicPhase2 cexRates4 cexO4.farPick fuel cexScn4 plan = (cexScn4, plan)
  | 0, _, _ => rfl
  | fuel + 1, plan, hlen => by
    rw [basicPhase2, if_neg hlen,
      if_neg (show ¬ (solvedT0Long0to5mUsdEq cexScn4.balances cexRates4 = true) by
        rw [solved_cex4]; exact Bool.false_ne_true),
      pickTopBad_cex4]

theorem basicPhase3_cex4 (s : Scenario) : ∀ (fuel idx : ℕ) (avoid : Option (Ccy × Ccy))
    (plan : List BasicSuggestion) (bc : ℕ),
    basicPhase3 s cexRates4 cexO4.bad3 fuel idx avoid plan bc = plan
  | 0, _, _, _, _ => rfl
  | fuel + 1, idx, avoid, plan, bc => by
    rw [basicPhase3]
    split
    · rw [show makeBadSwapDifferentPair s cexRates4 avoid (cexO4.bad3 idx)
        = none from makeBadGo_cexRates4 s avoid _ _ _]
    · rfl

theorem cex4_plan : buildBasicPlanForDay cexScn4 cexRates4 cexO4 = [] := by
  have h1 : basicPhase1 (shallowCopyScenario cexScn4) cexRates4 cexO4.bad1
      BASIC_REQUIRED_BAD 0 none [] 0 = ([], none, 0) :=
    basicPhase1_cex4 BASIC_REQUIRED_BAD 0 none [] 0
  have h2 : basicPhase2 cexRates4 cexO4.farPick 200 (shallowCopyScenario cexScn4) []
      = (cexScn4, []) :=
    basicPhase2_cex4 200 [] (by decide)
  have h3 : basicPhase3 cexScn4 cexRates4 cexO4.bad3 BASIC_MIN_STEPS 0 none [] 0 = [] :=
    basicPhase3_cex4 cexScn4 BASIC_MIN_STEPS 0 none [] 0
  simp only [buildBasicPlanForDay, h1, h2, h3, List.take_nil]

/-- C4 counterexample: with the empty-rates snapshot promoted to "ok"
status (every non-USD conversion NaN), no bad swap ever verifies (the
badness score is constantly zero) and no good step is found, so the plan
is empty — its length is below the claimed minimum of 15, it has fewer
than 3 bad suggestions, and the simulated good path ends unsolved. -/
theorem buildBasicPlanForDay_cex :
    buildBasicPlanForDay cexScn4 cexRates4 cexO4 = []
    ∧ ¬ (BASIC_MIN_STEPS ≤ (buildBasicPlanForDay cexScn4 cexRates4 cexO4).length)
    ∧ ¬ (BASIC_REQUIRED_BAD
          ≤ ((buildBasicPlanForDay cexScn4 cexRates4 cexO4).filter
              (fun x => !x.isGood)).length)
    ∧ solvedT0Long0to5mUsdEq
        (simGoods cexScn4 (buildBasicPlanForDay cexScn4 cexRates4 cexO4)).balances cexRates4
        = false := by
  have hp := cex4_plan
  refine ⟨hp, ?_, ?_, ?_⟩
  · rw [hp]
    decide
  · rw [hp]
    decide
  · rw [hp]
    exact solved_cex4

/-! ### Concrete witnesses -/

theorem enforceRowTotals_rowInvariant_witness :
    (∀ c, (cexScn4.flows c).length = 80)
    ∧ ((1000000 : ℚ) ≤ 1000000 ∧ (1000000 : ℚ) ≤ 9000000)
    ∧ (rowInvariant (enforceRowTotals cexScn4 (fun _ => 1000000))
        ∧ (∀ g : GenOracle, (∀ c, 1000000 ≤ g.targets c ∧ g.targets c ≤ 9000000) →
            rowInvariant (generateScenarioRaw g))
        ∧ (∀ (s2 : Scenario) (o : RollOracle),
            (∀ c, 1000000 ≤ o.targets c ∧ o.targets c ≤ 9000000) →
            rowInvariant (rollValueDate s2 o))) :=
  ⟨fun c => by simp [cexScn4],
    by norm_num,
    enforceRowTotals_rowInvariant cexScn4 (fun _ => 1000000)
      (fun c => by simp [cexScn4]) (fun c => by norm_num)⟩

theorem solvedT0Long0to5mUsdEq_iff_witness :
    (solvedT0Long0to5mUsdEq cexBalancesZero cexRatesG = true
      ↔ ∀ c, c ≠ USD →
          ∃ u, toUsd (cexBalancesZero c) c cexRatesG = some u ∧ 0 ≤ u ∧ u ≤ TOL_USD_EQ)
    ∧ ∀ b : ℚ, solvedT0Long0to5mUsdEq (Function.update cexBalancesZero USD b) cexRatesG
        = solvedT0Long0to5mUsdEq cexBalancesZero cexRatesG :=
  solvedT0Long0to5mUsdEq_iff cexBalancesZero cexRatesG

theorem buildGuidedFourTiles_spec_witness :
    (∀ l : List GuidedTile, (cexOracleG.shuf l).Perm l)
    ∧ ((buildGuidedFourTiles cexScnG cexRatesG cexOracleG).length = 0
        ∨ ((buildGuidedFourTiles cexScnG cexRatesG cexOracleG).map GuidedTile.category).Perm
            [TileCat.Best, TileCat.Marginal, TileCat.Worse, TileCat.Worse]) :=
  ⟨fun l => List.Perm.refl l,
    buildGuidedFourTiles_spec.1 cexScnG cexRatesG cexOracleG (fun l => List.Perm.refl l)⟩

theorem buildBasicPlanForDay_spec_witness :
    (buildBasicPlanForDay cexScnG cexRatesG cexO4).length ≤ BASIC_MAX_STEPS
    ∧ ((buildBasicPlanForDay cexScnG cexRatesG cexO4).filter (fun x => !x.isGood)).length
        ≤ BASIC_REQUIRED_BAD
    ∧ ∀ pre g post, buildBasicPlanForDay cexScnG cexRatesG cexO4 = pre ++ g :: post →
        g.isGood = true →
        t0BadnessUsdEq (applyFxSwap (simGoods cexScnG pre) g.trade).balances cexRatesG
          < t0BadnessUsdEq (simGoods cexScnG pre).balances cexRatesG :=
  buildBasicPlanForDay_spec cexScnG cexRatesG cexO4

theorem rollValueDate_shift_cells_witness :
    JPY ≠ USD ∧ (1 : ℕ) ≤ 1 ∧ (1 : ℕ) ≤ 78
    ∧ ((rollValueDate wScn5 wRoll5).balances JPY
          = wScn5.balances JPY + (wScn5.flows JPY).getD 1 0
        ∧ ((rollValueDate wScn5 wRoll5).flows JPY).getD 0 0 = 0
        ∧ ((rollValueDate wScn5 wRoll5).flows JPY).getD 1 0 = (wScn5.flows JPY).getD 2 0) :=
  ⟨by decide, le_refl 1, by norm_num,
    rollValueDate_shift_cells wScn5 wRoll5 (by decide) (le_refl 1) (by norm_num)⟩

theorem t0BadnessUsdEq_spec_witness :
    0 ≤ t0BadnessUsdEq cexBalancesZero cexRatesG
    ∧ t0BadnessUsdEq cexBalancesZero cexRatesG
        = ∑ c ∈ Finset.univ.filter (fun c => c ≠ USD), usdEqPenalty cexRatesG cexBalancesZero c
    ∧ ((∀ c, c ≠ USD → (toUsd (cexBalancesZero c) c cexRatesG).isSome = true) →
        (t0BadnessUsdEq cexBalancesZero cexRatesG = 0
          ↔ solvedT0Long0to5mUsdEq cexBalancesZero cexRatesG = true)) :=
  t0BadnessUsdEq_spec cexBalancesZero cexRatesG

theorem clampNotionalBuyToUsdEq_spec_witness :
    cexRatesG.status = RatesStatus.ok
    ∧ cexRatesG.usdPerCcy wTrade7.buyCcy = some 1
    ∧ 0 < wTrade7.notionalBuy * 1
    ∧ ∃ t2, clampNotionalBuyToUsdEq wTrade7 cexRatesG = some t2
        ∧ t2.buyCcy = wTrade7.buyCcy ∧ t2.sellCcy = wTrade7.sellCcy
        ∧ t2.nearOffset = wTrade7.nearOffset ∧ t2.farOffset = wTrade7.farOffset
        ∧ t2.spot = wTrade7.spot ∧ t2.fwd = wTrade7.fwd
        ∧ (MIN_SWAP_USD_EQ ≤ wTrade7.notionalBuy * 1 →
            wTrade7.notionalBuy * 1 ≤ MAX_SWAP_USD_EQ → t2 = wTrade7)
        ∧ (wTrade7.notionalBuy * 1 < MIN_SWAP_USD_EQ →
            t2.notionalBuy
              = ((jsRound (wTrade7.notionalBuy
                  * (MIN_SWAP_USD_EQ / (wTrade7.notionalBuy * 1))) : ℤ) : ℚ))
        ∧ (MAX_SWAP_USD_EQ < wTrade7.notionalBuy * 1 →
            t2.notionalBuy
              = ((jsRound (wTrade7.notionalBuy
                  * (MAX_SWAP_USD_EQ / (wTrade7.notionalBuy * 1))) : ℤ) : ℚ))
        ∧ MIN_SWAP_USD_EQ - |1| / 2 ≤ t2.notionalBuy * 1
        ∧ t2.notionalBuy * 1 ≤ MAX_SWAP_USD_EQ + |1| / 2 :=
  ⟨rfl, rfl, by show (0 : ℚ) < 3000000 * 1; norm_num,
    clampNotionalBuyToUsdEq_spec wTrade7 cexRatesG rfl rfl
      (by show (0 : ℚ) < 3000000 * 1; norm_num)⟩

theorem swap_roundTrip_cost_pos_witness :
    cexRatesRT.usdPerCcy wTradeRT.sellCcy = some 1
    ∧ cexRatesRT.usdPerCcy wTradeRT.buyCcy = some (1 / 2)
    ∧ (0 : ℚ) < 1
    ∧ (0 : ℚ) < wTradeRT.spot
    ∧ (1 / 2 : ℚ) = wTradeRT.spot * 1
    ∧ wTradeRT.fwd = forwardFromSpot wTradeRT.spot wTradeRT.buyCcy wTradeRT.sellCcy 2
    ∧ (0 : ℚ) < wTradeRT.notionalBuy
    ∧ (10000 / 3 : ℚ) < wTradeRT.notionalBuy * wTradeRT.spot
    ∧ (wTradeRT.fwd ≠ wTradeRT.spot
        ∧ ∃ c1 c2, swapUsdCost wTradeRT cexRatesRT = some c1
            ∧ swapUsdCost (invertTrade wTradeRT) cexRatesRT = some c2
            ∧ 0 < c1 + c2) :=
  ⟨rfl, rfl, by norm_num, by show (0 : ℚ) < 1 / 2; norm_num,
    by show (1 / 2 : ℚ) = 1 / 2 * 1; norm_num, rfl,
    by show (0 : ℚ) < 1000000; norm_num,
    by show (10000 / 3 : ℚ) < 1000000 * (1 / 2); norm_num,
    swap_roundTrip_cost_pos wTradeRT cexRatesRT 2 rfl rfl (by norm_num)
      (by show (0 : ℚ) < 1 / 2; norm_num)
      (by show (1 / 2 : ℚ) = 1 / 2 * 1; norm_num) rfl
      (by show (0 : ℚ) < 1000000; norm_num)
      (by show (10000 / 3 : ℚ) < 1000000 * (1 / 2); norm_num)⟩

theorem applyFxSwap_cells_witness :
    (∀ c, (cexScn4.flows c).length = 80)
    ∧ ((∀ c, (applyFxSwap cexScn4 defaultTrade).balances c
          = cexScn4.balances c + legDelta defaultTrade c 0)
      ∧ (∀ c, ((applyFxSwap cexScn4 defaultTrade).flows c).getD 0 0
          = (cexScn4.flows c).getD 0 0)
      ∧ (∀ c (d : ℕ), 1 ≤ d → d ≤ 79 →
          ((applyFxSwap cexScn4 defaultTrade).flows c).getD d 0
            = (cexScn4.flows c).getD d 0 + legDelta defaultTrade c (d : ℤ))) :=
  ⟨fun c => by simp [cexScn4],
    applyFxSwap_cells cexScn4 defaultTrade (fun c => by simp [cexScn4])⟩

theorem enforceRowTotals_frame_witness :
    (∀ c, c ≠ USD →
        (enforceRowTotals cexScn4 (fun _ => 1000000)).balances c = cexScn4.balances c)
    ∧ (enforceRowTotals cexScn4 (fun _ => 1000000)).balances USD
        = cexScn4.balances USD
          + (if rowTotal cexScn4 USD < USD_MIN_ROW_TOTAL
             then USD_MIN_ROW_TOTAL - rowTotal cexScn4 USD else 0)
    ∧ rowTotal (enforceRowTotals cexScn4 (fun _ => 1000000)) USD
        = max (rowTotal cexScn4 USD) USD_MIN_ROW_TOTAL
    ∧ (∀ c (d : ℕ), d ≤ 78 →
        ((enforceRowTotals cexScn4 (fun _ => 1000000)).flows c).getD d 0
          = (cexScn4.flows c).getD d 0)
    ∧ (enforceRowTotals cexScn4 (fun _ => 1000000)).flows USD = cexScn4.flows USD
    ∧ (∀ c, ((enforceRowTotals cexScn4 (fun _ => 1000000)).flows c).length
        = (cexScn4.flows c).length) :=
  enforceRowTotals_frame cexScn4 (fun _ => 1000000)

end FxSwaps
